import Mathlib

/-!
Verification of the Allocation Resolution & Forecast Aggregation Engine of
HB-Staffing (backend/engine.py and backend/models.py), as a shallow embedding.

Conventions of the embedding:
* Python `datetime.date` values are the `Date` structure below; comparison and
  subtraction of dates go through `toOrdinal`, the proleptic-Gregorian ordinal
  (`date.toordinal()` in Python: 0001-01-01 has ordinal 1).  For every valid
  calendar date the ordinal order coincides with Python date order, and
  `(a - b).days = toOrdinal a - toOrdinal b`.
* Python floats holding percentages, hours, rates and costs are embedded as
  exact rationals (`ℚ`).
* SQLAlchemy queries are filters over explicit in-memory tables (`DB` below);
  `Model.query.filter(...)` becomes `List.filter`, `.first()` becomes
  `List.find?`, ORM relationship attributes become embedded fields.
* Functions that `raise ValueError(...)` are embedded in `Except String`.
* Week-bucket keys (Python `date.isoformat()` strings of week-start Mondays)
  are embedded as week-start ordinals, and month keys (`'%Y-%m'` strings) as
  `(year, month)` pairs; both embeddings are injective on valid dates.
-/

namespace HB

/-- Gregorian leap-year test (as used by Python `datetime`/`calendar`). -/
def isLeap (y : Int) : Bool := (y % 4 == 0 && y % 100 != 0) || y % 400 == 0

/-- Number of days of month `m` of year `y`; months outside 1..12 never occur
in a Python `date` and are given the default 31. -/
def daysInMonth (y : Int) (m : Nat) : Nat :=
  if m = 2 then (if isLeap y then 29 else 28)
  else if m = 4 ∨ m = 6 ∨ m = 9 ∨ m = 11 then 30
  else 31

/-- Days of year `y` that precede the first day of month `m`. -/
def daysBeforeMonth (y : Int) (m : Nat) : Nat :=
  ((List.range (m - 1)).map (fun i => daysInMonth y (i + 1))).sum

/-- Number of leap years in `1..y` (for `y ≥ 0`). -/
def leapsBefore (y : Int) : Int := y / 4 - y / 100 + y / 400

/-- A calendar date (Python `datetime.date`). -/
structure Date where
  year : Int
  month : Nat
  day : Nat
deriving DecidableEq

/-- Python `date.toordinal()`: 0001-01-01 ↦ 1. -/
def toOrdinal (d : Date) : Int :=
  365 * (d.year - 1) + leapsBefore (d.year - 1) + (daysBeforeMonth d.year d.month : Int) + (d.day : Int)

/-- Python `a <= b` on dates. -/
def dateLE (a b : Date) : Bool := toOrdinal a ≤ toOrdinal b

/-- Python `a < b` on dates. -/
def dateLT (a b : Date) : Bool := toOrdinal a < toOrdinal b

/-- Python `max(a, b)` on two dates (returns `a` on ties). -/
def dateMax (a b : Date) : Date := if toOrdinal a < toOrdinal b then b else a

/-- Python `min(a, b)` on two dates (returns `a` on ties). -/
def dateMin (a b : Date) : Date := if toOrdinal b < toOrdinal a then b else a

/-- First day of the month `(y, m)` (the engine's `date(y, m, 1)`). -/
def firstOfMonth (ym : Int × Nat) : Date := ⟨ym.1, ym.2, 1⟩

/-- Last day of the month `(y, m)`; the engine computes it as
`date(y, m, 1) + relativedelta(months=1) - timedelta(days=1)`, which for a
valid month equals `date(y, m, daysInMonth y m)` (lemma `toOrdinal_lastOfMonth`). -/
def lastOfMonth (ym : Int × Nat) : Date := ⟨ym.1, ym.2, daysInMonth ym.1 ym.2⟩

/-- Successor month: `date(y, m, 1) + relativedelta(months=1)` on the month part. -/
def nextMonth (ym : Int × Nat) : Int × Nat :=
  if ym.2 = 12 then (ym.1 + 1, 1) else (ym.1, ym.2 + 1)

/-- The month-iteration pattern shared by the engine's loops of the shape
`current_month = date(start.year, start.month, 1); while current_month <= period_end:
... current_month = current_month + relativedelta(months=1)`: the list of
`(year, month)` values taken by `current_month`. -/
def monthList (ym : Int × Nat) (periodEnd : Date) : List (Int × Nat) :=
  if dateLE (firstOfMonth ym) periodEnd then ym :: monthList (nextMonth ym) periodEnd else []
termination_by ((toOrdinal periodEnd + 1 - toOrdinal (firstOfMonth ym)).toNat * 2 +
  (if ym.2 = 0 then 1 else 0))
decreasing_by
  rename_i hguard
  simp only [dateLE, decide_eq_true_eq] at hguard
  have hmono : ∀ (y : Int) (m : Nat), 1 ≤ m →
      toOrdinal (firstOfMonth (nextMonth (y, m))) =
        toOrdinal (firstOfMonth (y, m)) + daysInMonth y m := by
    intro y m h
    unfold nextMonth
    by_cases h12 : m = 12
    · subst h12
      simp only [firstOfMonth, toOrdinal]
      have hstep : leapsBefore y = leapsBefore (y - 1) + (if isLeap y then 1 else 0) := by
        unfold leapsBefore isLeap
        by_cases h4 : y % 4 = 0 <;> by_cases h100 : y % 100 = 0 <;>
          by_cases h400 : y % 400 = 0 <;> simp [h4, h100, h400] <;> omega
      have h334 : (daysBeforeMonth y 12 : Int) = 334 + (if isLeap y then 1 else 0) := by
        unfold daysBeforeMonth
        have hr : List.range (12 - 1) = [0, 1, 2, 3, 4, 5, 6, 7, 8, 9, 10] := by rfl
        rw [hr]
        by_cases hL : isLeap y <;> simp [daysInMonth, hL]
      have hd : daysInMonth y 12 = 31 := by norm_num [daysInMonth]
      simp only [hd]
      have hz : daysBeforeMonth (y + 1) 1 = 0 := by simp [daysBeforeMonth]
      simp only [if_neg, reduceIte, hz]
      push_cast
      have hy : y + 1 - 1 = y := by ring
      rw [hy]
      omega
    · simp only [if_neg h12, firstOfMonth, toOrdinal]
      have hsucc : daysBeforeMonth y (m + 1) = daysBeforeMonth y m + daysInMonth y m := by
        unfold daysBeforeMonth
        have h1 : m + 1 - 1 = (m - 1) + 1 := by omega
        have h2 : m - 1 + 1 = m := by omega
        rw [h1, List.range_succ]
        simp [h2]
      rw [hsucc]
      push_cast
      ring
  have hpos : ∀ (y : Int) (m : Nat), 0 < daysInMonth y m := by
    intro y m
    unfold daysInMonth
    split
    · split <;> norm_num
    · split <;> norm_num
  rcases ym with ⟨y, m⟩
  by_cases hm : m = 0
  · subst hm
    have heq : toOrdinal (firstOfMonth (nextMonth (y, 0))) = toOrdinal (firstOfMonth (y, 0)) := by
      simp only [nextMonth]
      norm_num
      simp [firstOfMonth, toOrdinal, daysBeforeMonth]
    have hnz : (nextMonth (y, 0)).2 ≠ 0 := by simp [nextMonth]
    simp only [hnz, if_neg, reduceIte]
    rw [heq]
    omega
  · have h1 : 1 ≤ m := by omega
    have hlt := hmono y m h1
    have hp := hpos y m
    have hnz : (nextMonth (y, m)).2 ≠ 0 := by
      simp only [nextMonth]
      split <;> simp
    simp only [hnz, if_neg, reduceIte, hm]
    omega

/-- Inverse of `toOrdinal` on valid dates (the civil-from-days algorithm); used
by the weekly loops, which step `current_date += timedelta(days=7)` and take
`week_start = current_date - timedelta(days=current_date.weekday())`. -/
def fromOrdinal (n : Int) : Date :=
  let z := n + 305
  let era := z / 146097
  let doe := z - era * 146097
  let yoe := (doe - doe / 1460 + doe / 36524 - doe / 146096) / 365
  let doy := doe - (365 * yoe + yoe / 4 - yoe / 100)
  let mp := (5 * doy + 2) / 153
  let d := doy - (153 * mp + 2) / 5 + 1
  let m := if mp < 10 then mp + 3 else mp - 9
  let y := yoe + era * 400 + (if m ≤ 2 then 1 else 0)
  ⟨y, m.toNat, d.toNat⟩

/-- Python `date.weekday()` (Monday = 0): ordinal 1 (0001-01-01) was a Monday. -/
def weekday (n : Int) : Int := (n - 1) % 7

/-- engine.calculate_date_range_overlap: number of inclusive overlapping days
between two date ranges, 0 when any date is missing (`None`) or the ranges do
not intersect.  (Python dates are always truthy, so `not all([...])` tests
exactly for `None`.) -/
def calculate_date_range_overlap (start1 end1 start2 end2 : Option Date) : Int :=
  match start1, end1, start2, end2 with
  | some s1, some e1, some s2, some e2 =>
    let overlapStart := dateMax s1 s2
    let overlapEnd := dateMin e1 e2
    if toOrdinal overlapStart ≤ toOrdinal overlapEnd then
      toOrdinal overlapEnd - toOrdinal overlapStart + 1
    else 0
  | _, _, _, _ => 0

/-- models.Role: name is unique in the table; `default_billable_rate` is a
nullable float column. -/
structure Role where
  id : Int
  name : String
  hourlyCost : ℚ
  defaultBillableRate : Option ℚ

/-- models.Staff.  `position_role` is the ORM relationship to `Role` (a
non-null FK, but the code guards with `if self.position_role`). -/
structure Staff where
  id : Int
  name : String
  positionRole : Option Role
  internalHourlyCost : ℚ
  availabilityStart : Option Date := none
  availabilityEnd : Option Date := none

/-- models.Staff.default_billable_rate (property): the rate of the assigned
role, `None` when there is no role or the role has none. -/
def Staff.defaultBillableRate (s : Staff) : Option ℚ :=
  s.positionRole.bind (fun r => r.defaultBillableRate)

/-- models.ProjectRoleRate: explicit billable-rate override of a role on a
project node ((project, role) unique). -/
structure ProjectRoleRate where
  roleId : Int
  billableRate : ℚ

/-- models.Project with its `role_rates` and the `parent_project` relationship
chain embedded (the object graph the ORM exposes).  A `root` is a project
whose `parent_project` is `None`; a `child` carries its parent project. -/
inductive Project where
  | root (id : Int) (name : String) (startDate endDate : Option Date)
      (roleRates : List ProjectRoleRate)
  | child (id : Int) (name : String) (startDate endDate : Option Date)
      (roleRates : List ProjectRoleRate) (parent : Project)

def Project.pid : Project → Int
  | .root i _ _ _ _ => i
  | .child i _ _ _ _ _ => i

def Project.pname : Project → String
  | .root _ n _ _ _ => n
  | .child _ n _ _ _ _ => n

def Project.startDate : Project → Option Date
  | .root _ _ sd _ _ => sd
  | .child _ _ sd _ _ _ => sd

def Project.endDate : Project → Option Date
  | .root _ _ _ ed _ => ed
  | .child _ _ _ ed _ _ => ed

def Project.roleRates : Project → List ProjectRoleRate
  | .root _ _ _ _ rr => rr
  | .child _ _ _ _ rr _ => rr

/-- The `parent_project` relationship (`None` on a root). -/
def Project.parentProject : Project → Option Project
  | .root _ _ _ _ _ => none
  | .child _ _ _ _ _ p => some p

/-- Result of models.Project.get_role_rate: the dict
`{'rate': ..., 'is_inherited': ..., 'source_project_id': ...}`. -/
structure RateInfo where
  rate : ℚ
  isInherited : Bool
  sourceProjectId : Int
deriving DecidableEq

/-- The re-tagging of a parent's rate result in models.Project.get_role_rate:
`{'rate': parent_rate['rate'], 'is_inherited': True, 'source_project_id': parent_rate['source_project_id']}`,
or `None` when the parent found none. -/
def retagInherited : Option RateInfo → Option RateInfo
  | some parentRate =>
    some { rate := parentRate.rate, isInherited := true,
           sourceProjectId := parentRate.sourceProjectId }
  | none => none

/-- models.Project.get_role_rate: the project's own rates first (first match in
`role_rates`), else recursively the parent's, re-tagged `is_inherited = True`
(`None` when the project is a root with no own rate). -/
def Project.getRoleRate : Project → Int → Option RateInfo
  | .root pid _ _ _ rates, roleId =>
    match rates.find? (fun r => r.roleId == roleId) with
    | some r => some { rate := r.billableRate, isInherited := false, sourceProjectId := pid }
    | none => none
  | .child pid _ _ _ rates parent, roleId =>
    match rates.find? (fun r => r.roleId == roleId) with
    | some r => some { rate := r.billableRate, isInherited := false, sourceProjectId := pid }
    | none => retagInherited (parent.getRoleRate roleId)

/-- models.Project.get_role_rate_by_name: resolve the role by (unique) name in
the roles table, then `get_role_rate`. -/
def get_role_rate_by_name (roles : List Role) (p : Project) (roleName : String) : Option RateInfo :=
  match roles.find? (fun r => r.name == roleName) with
  | some role => p.getRoleRate role.id
  | none => none

/-- models.AssignmentMonthlyAllocation: `month` is the first day of a calendar
month, `(assignment, month)` unique. -/
structure MonthlyAllocation where
  month : Date
  allocationPercentage : ℚ

/-- models.Assignment with its ORM relationships (`staff_member`, `project`,
`monthly_allocations`) embedded.  `start_date`/`end_date` are non-null columns. -/
structure Assignment where
  id : Int
  staffId : Int
  staffMember : Option Staff
  projectId : Int
  project : Option Project
  startDate : Date
  endDate : Date
  hoursPerWeek : ℚ := 40
  roleOnProject : String := ""
  allocationType : String := "full"
  allocationPercentage : ℚ := 100
  monthlyAllocations : List MonthlyAllocation := []

/-- models.Assignment.get_effective_billable_rate, returning the
`(rate, source)` pair.  Python truthiness: the project branch runs only when
`role_on_project` is non-empty, and a `default_billable_rate` of exactly `0`
(like `None`) fails the `if self.staff_member and self.staff_member.default_billable_rate`
test and falls through to `{'rate': 0, 'source': 'none'}`. -/
def get_effective_billable_rate (roles : List Role) (a : Assignment) : ℚ × String :=
  let viaProject : Option (ℚ × String) :=
    match a.project with
    | some p =>
      if a.roleOnProject ≠ "" then
        match get_role_rate_by_name roles p a.roleOnProject with
        | some rateInfo =>
          some (rateInfo.rate,
            if rateInfo.isInherited then "inherited_project_role_rate" else "project_role_rate")
        | none => none
      else none
    | none => none
  match viaProject with
  | some r => r
  | none =>
    match a.staffMember with
    | some s =>
      match s.defaultBillableRate with
      | some r => if r ≠ 0 then (r, "role_default_billable_rate") else (0, "none")
      | none => (0, "none")
    | none => (0, "none")

/-- One iteration of the `percentage_monthly` loop body of
models.Assignment.get_allocation_for_period: find the month's stored
percentage (default 100), clamp the month to the period, and accumulate
`(total_days, weighted_allocation)` when the clamped day count is positive. -/
def monthlyStep (a : Assignment) (ps pe : Date) (acc : Int × ℚ) (ym : Int × Nat) : Int × ℚ :=
  let monthAllocation := ((a.monthlyAllocations.find? (fun ma =>
    ma.month.year == ym.1 && ma.month.month == ym.2)).map
      (fun ma => ma.allocationPercentage)).getD 100
  let monthStart := dateMax (firstOfMonth ym) ps
  let monthEnd := dateMin (lastOfMonth ym) pe
  let daysInPeriod := toOrdinal monthEnd - toOrdinal monthStart + 1
  if 0 < daysInPeriod then
    (acc.1 + daysInPeriod, acc.2 + (daysInPeriod : ℚ) * monthAllocation)
  else acc

/-- models.Assignment.get_allocation_for_period.  `allAssignments` is the
assignments table (the `split_by_projects` branch queries it); `periodStart?`
and `periodEnd?` default to the assignment's own dates.  The
`percentage_monthly` branch walks the calendar months from the month of
`period_start` while `current_month <= period_end`, accumulating
`(total_days, weighted_allocation)` via `monthlyStep`. -/
def getAllocationForPeriod (allAssignments : List Assignment) (a : Assignment)
    (periodStart? periodEnd? : Option Date) : ℚ :=
  let ps := periodStart?.getD a.startDate
  let pe := periodEnd?.getD a.endDate
  if a.allocationType = "full" then 100
  else if a.allocationType = "percentage_total" then a.allocationPercentage
  else if a.allocationType = "split_by_projects" then
    let overlapping := allAssignments.filter (fun b =>
      b.staffId == a.staffId && dateLE b.startDate pe && dateLE ps b.endDate)
    if 0 < overlapping.length then 100 / (overlapping.length : ℚ) else 100
  else if a.allocationType = "percentage_monthly" then
    if a.monthlyAllocations.isEmpty then 100
    else
      let months := monthList (ps.year, ps.month) pe
      let acc := months.foldl (monthlyStep a ps pe) (0, 0)
      if 0 < acc.1 then acc.2 / (acc.1 : ℚ) else 100
  else 100

/-- models.Assignment.duration_weeks: `(end - start).days / 7.0` (dates are
non-null columns, so the `if self.start_date and self.end_date` guard holds). -/
def Assignment.durationWeeks (a : Assignment) : ℚ :=
  ((toOrdinal a.endDate - toOrdinal a.startDate : Int) : ℚ) / 7

/-- models.Assignment.total_hours. -/
def Assignment.totalHours (a : Assignment) : ℚ := a.durationWeeks * a.hoursPerWeek

/-- models.Assignment.estimated_cost. -/
def estimatedCost (roles : List Role) (a : Assignment) : ℚ :=
  a.totalHours * (get_effective_billable_rate roles a).1

/-- models.Assignment.internal_cost. -/
def internalCost (a : Assignment) : ℚ :=
  match a.staffMember with
  | some s => a.totalHours * s.internalHourlyCost
  | none => 0

/-- models.Assignment.effective_allocation (property): the allocation over the
assignment's own date range. -/
def effectiveAllocation (allAssignments : List Assignment) (a : Assignment) : ℚ :=
  getAllocationForPeriod allAssignments a none none

/-- models.Assignment.allocated_estimated_cost. -/
def allocatedEstimatedCost (roles : List Role) (allAssignments : List Assignment)
    (a : Assignment) : ℚ :=
  estimatedCost roles a * (effectiveAllocation allAssignments a / 100)

/-- models.Assignment.allocated_internal_cost. -/
def allocatedInternalCost (allAssignments : List Assignment) (a : Assignment) : ℚ :=
  internalCost a * (effectiveAllocation allAssignments a / 100)

/-- engine.calculate_assignment_hours_in_period. -/
def calculate_assignment_hours_in_period (allAssignments : List Assignment) (a : Assignment)
    (periodStart periodEnd : Date) (applyAllocation : Bool) : ℚ :=
  let overlapDays := calculate_date_range_overlap (some a.startDate) (some a.endDate)
    (some periodStart) (some periodEnd)
  if overlapDays ≤ 0 then 0
  else
    let weeksInPeriod : ℚ := (overlapDays : ℚ) / 7
    let rawHours := weeksInPeriod * a.hoursPerWeek
    if applyAllocation then
      rawHours * (getAllocationForPeriod allAssignments a (some periodStart) (some periodEnd) / 100)
    else rawHours

/-- The persisted tables the engine reads. -/
structure DB where
  roles : List Role
  staffs : List Staff
  projects : List Project
  assignments : List Assignment

/-- Accumulation into a `defaultdict(float)` bucket: `bucket[key] += v`. -/
def addToBucket : List (Int × ℚ) → Int → ℚ → List (Int × ℚ)
  | [], k, v => [(k, v)]
  | (k0, v0) :: rest, k, v =>
    if k0 == k then (k0, v0 + v) :: rest else (k0, v0) :: addToBucket rest k v

/-- Assignment into a nested dict: `d[name] = v` (overwrite, not accumulate —
the source writes `staff_breakdown[week_key][name] = hours`). -/
def setAssoc : List (String × ℚ) → String → ℚ → List (String × ℚ)
  | [], nm, v => [(nm, v)]
  | (n0, v0) :: rest, nm, v =>
    if n0 == nm then (n0, v) :: rest else (n0, v0) :: setAssoc rest nm v

/-- Nested write `staff_breakdown[week_key][name] = v`. -/
def setStaffHours : List (Int × List (String × ℚ)) → Int → String → ℚ →
    List (Int × List (String × ℚ))
  | [], k, nm, v => [(k, [(nm, v)])]
  | (k0, m) :: rest, k, nm, v =>
    if k0 == k then (k0, setAssoc m nm v) :: rest else (k0, m) :: setStaffHours rest k nm v

/-- Staff name of an assignment (`assignment.staff_member.name`; the FK is
non-null, the default covers the unreachable `None`). -/
def staffNameOf (a : Assignment) : String := (a.staffMember.map (fun s => s.name)).getD ""

/-- The weekly accumulators of engine.calculate_project_staffing_needs. -/
structure WeeklyAcc where
  weeklyStaffing : List (Int × ℚ)
  weeklyStaffingRaw : List (Int × ℚ)
  staffBreakdown : List (Int × List (String × ℚ))

/-- One week iteration of the `while current_date <= end_date:` loop of
engine.calculate_project_staffing_needs: per assignment, allocated and raw
hours of the Monday-aligned week, accumulated into the weekly buckets. -/
def weekStep (allAssignments assignments : List Assignment) (cur : Int)
    (acc : WeeklyAcc) : WeeklyAcc :=
  let weekStartOrd := cur - weekday cur
  let weekStart := fromOrdinal weekStartOrd
  let weekEnd := fromOrdinal (weekStartOrd + 6)
  assignments.foldl (fun acc a =>
    let hours := calculate_assignment_hours_in_period allAssignments a weekStart weekEnd true
    let rawHours := calculate_assignment_hours_in_period allAssignments a weekStart weekEnd false
    let acc1 := if 0 < hours then
        { acc with weeklyStaffing := addToBucket acc.weeklyStaffing weekStartOrd hours,
                   staffBreakdown := setStaffHours acc.staffBreakdown weekStartOrd (staffNameOf a) hours }
      else acc
    if 0 < rawHours then
      { acc1 with weeklyStaffingRaw := addToBucket acc1.weeklyStaffingRaw weekStartOrd rawHours }
    else acc1) acc

/-- The `while current_date <= end_date:` loop of
engine.calculate_project_staffing_needs, on date ordinals (`current_date`
steps by 7 days; buckets are keyed by the Monday `week_start`). -/
def weekLoop (allAssignments assignments : List Assignment) (endOrd : Int) (cur : Int)
    (acc : WeeklyAcc) : WeeklyAcc :=
  if cur ≤ endOrd then
    weekLoop allAssignments assignments endOrd (cur + 7)
      (weekStep allAssignments assignments cur acc)
  else acc
termination_by (endOrd + 1 - cur).toNat
decreasing_by omega

/-- Result structure of engine.calculate_project_staffing_needs. -/
structure ProjectForecast where
  projectId : Int
  projectName : String
  forecastStart : Date
  forecastEnd : Date
  weeklyStaffing : List (Int × ℚ)
  weeklyStaffingRaw : List (Int × ℚ)
  staffBreakdown : List (Int × List (String × ℚ))
  totalEstimatedCost : ℚ
  totalInternalCost : ℚ
  totalAllocatedCost : ℚ
  totalAllocatedInternalCost : ℚ
  assignmentsCount : Nat

/-- engine.calculate_project_staffing_needs. -/
def calculate_project_staffing_needs (db : DB) (projectId : Int)
    (startDate? endDate? : Option Date) : Except String ProjectForecast :=
  match db.projects.find? (fun p => p.pid == projectId) with
  | none => Except.error "Project not found"
  | some project =>
    let startDate := startDate? <|> project.startDate
    let endDate := endDate? <|> project.endDate
    match startDate, endDate with
    | some sd, some ed =>
      let assignments := db.assignments.filter (fun a => a.projectId == projectId)
      let acc := weekLoop db.assignments assignments (toOrdinal ed) (toOrdinal sd) ⟨[], [], []⟩
      Except.ok {
        projectId := projectId
        projectName := project.pname
        forecastStart := sd
        forecastEnd := ed
        weeklyStaffing := acc.weeklyStaffing
        weeklyStaffingRaw := acc.weeklyStaffingRaw
        staffBreakdown := acc.staffBreakdown
        totalEstimatedCost := (assignments.map (fun a => estimatedCost db.roles a)).sum
        totalInternalCost := (assignments.map internalCost).sum
        totalAllocatedCost :=
          (assignments.map (fun a => allocatedEstimatedCost db.roles db.assignments a)).sum
        totalAllocatedInternalCost :=
          (assignments.map (fun a => allocatedInternalCost db.assignments a)).sum
        assignmentsCount := assignments.length }
    | _, _ => Except.error "Project must have start and end dates, or dates must be provided"

/-- One entry of `changes['add_assignments']` in engine.simulate_scenario
(dict `.get` defaults: hours 40, role name empty). -/
structure NewAssignmentSpec where
  staffId : Int
  startDate : Date
  endDate : Date
  hoursPerWeek? : Option ℚ := none
  roleOnProject : String := ""

/-- The `changes` dict of engine.simulate_scenario.  `modifyHours` is keyed by
assignment id (`str(id)` in the JSON dict). -/
structure ScenarioChanges where
  addAssignments : List NewAssignmentSpec := []
  removeAssignments : List Int := []
  modifyHours : List (Int × ℚ) := []
  extendEndDate : Option Date := none

/-- An empty change set (`simulate_scenario(P, {})`). -/
def emptyChanges : ScenarioChanges := {}

/-- One in-memory simulated assignment record of engine.simulate_scenario.
The source also stores a string `id` tag and a `rate_source` per record; both
are write-only downstream (and for an added assignment whose role resolves to
a project rate the source would in fact raise `KeyError` building
`rate_info['source']`), so they are omitted here. -/
structure SimAssignment where
  staffId : Int
  staffName : String
  billableRate : ℚ
  startDate : Date
  endDate : Date
  hoursPerWeek : ℚ
  roleOnProject : String

/-- The simulated weekly loop of engine.simulate_scenario (same week stepping,
raw hours only, no allocation applied). -/
def simWeekLoop (simAssignments : List SimAssignment) (endOrd : Int) (cur : Int)
    (acc : List (Int × ℚ) × List (Int × List (String × ℚ))) :
    List (Int × ℚ) × List (Int × List (String × ℚ)) :=
  if cur ≤ endOrd then
    let weekStartOrd := cur - weekday cur
    let acc2 := simAssignments.foldl (fun acc a =>
      let overlapDays := calculate_date_range_overlap (some a.startDate) (some a.endDate)
        (some (fromOrdinal weekStartOrd)) (some (fromOrdinal (weekStartOrd + 6)))
      if 0 < overlapDays then
        let hours := (overlapDays : ℚ) / 7 * a.hoursPerWeek
        (addToBucket acc.1 weekStartOrd hours, setStaffHours acc.2 weekStartOrd a.staffName hours)
      else acc) acc
    simWeekLoop simAssignments endOrd (cur + 7) acc2
  else acc
termination_by (endOrd + 1 - cur).toNat
decreasing_by omega

/-- The `simulated_forecast` mapping of engine.simulate_scenario. -/
structure SimulatedForecast where
  weeklyStaffing : List (Int × ℚ)
  staffBreakdown : List (Int × List (String × ℚ))
  totalEstimatedCost : ℚ
  assignmentsCount : Nat

/-- The `impact_analysis` mapping of engine.simulate_scenario. -/
structure ImpactAnalysis where
  costDifference : ℚ
  assignmentDifference : Int
  percentageCostChange : ℚ

/-- Result of engine.simulate_scenario. -/
structure SimulationResult where
  currentForecast : ProjectForecast
  simulatedForecast : SimulatedForecast
  impact : ImpactAnalysis

/-- engine.simulate_scenario.  An exception from the current-forecast
computation propagates (`Except.bind`); `remove_assignments` membership and
the `modify_hours` lookup behave as the Python truthiness-guarded dict
accesses do on arbitrary change sets. -/
def simulate_scenario (db : DB) (projectId : Int) (changes : ScenarioChanges) :
    Except String SimulationResult :=
  match db.projects.find? (fun p => p.pid == projectId) with
  | none => Except.error "Project not found"
  | some project =>
    (calculate_project_staffing_needs db projectId none none).bind (fun currentForecast =>
      let currentAssignments := db.assignments.filter (fun a => a.projectId == projectId)
      let simulatedExisting := (currentAssignments.filter (fun a =>
          !(changes.removeAssignments.contains a.id))).map (fun a =>
        let rateInfo := get_effective_billable_rate db.roles a
        ({ staffId := a.staffId
           staffName := staffNameOf a
           billableRate := rateInfo.1
           startDate := a.startDate
           endDate := a.endDate
           hoursPerWeek := ((changes.modifyHours.find? (fun kv => kv.1 == a.id)).map
             (fun kv => kv.2)).getD a.hoursPerWeek
           roleOnProject := a.roleOnProject } : SimAssignment))
      let simulatedAssignments := simulatedExisting ++ changes.addAssignments.filterMap (fun na =>
        match db.staffs.find? (fun s => s.id == na.staffId) with
        | some staff =>
          let rateInfo := if na.roleOnProject ≠ "" then
              get_role_rate_by_name db.roles project na.roleOnProject
            else none
          some ({ staffId := staff.id
                  staffName := staff.name
                  billableRate := match rateInfo with
                    | some ri => ri.rate
                    | none => staff.defaultBillableRate.getD 0
                  startDate := na.startDate
                  endDate := na.endDate
                  hoursPerWeek := na.hoursPerWeek?.getD 40
                  roleOnProject := na.roleOnProject } : SimAssignment)
        | none => none)
      let startDate := project.startDate
      let endDate := match changes.extendEndDate with
        | some d => some d
        | none => project.endDate
      let weekly := match startDate, endDate with
        | some sd, some ed => simWeekLoop simulatedAssignments (toOrdinal ed) (toOrdinal sd) ([], [])
        | _, _ => ([], [])
      let totalCost := simulatedAssignments.foldl (fun tc a =>
        tc + ((toOrdinal a.endDate - toOrdinal a.startDate : Int) : ℚ) / 7 *
          a.hoursPerWeek * a.billableRate) 0
      let costDifference := totalCost - currentForecast.totalEstimatedCost
      let assignmentDifference :=
        (simulatedAssignments.length : Int) - (currentForecast.assignmentsCount : Int)
      let simForecast : SimulatedForecast :=
        { weeklyStaffing := weekly.1
          staffBreakdown := weekly.2
          totalEstimatedCost := totalCost
          assignmentsCount := simulatedAssignments.length }
      let impactAnalysis : ImpactAnalysis :=
        { costDifference := costDifference
          assignmentDifference := assignmentDifference
          percentageCostChange :=
            if 0 < currentForecast.totalEstimatedCost then
              costDifference / currentForecast.totalEstimatedCost * 100
            else 0 }
      Except.ok { currentForecast := currentForecast
                  simulatedForecast := simForecast
                  impact := impactAnalysis })

/-- One per-assignment entry of a month of the allocation timeline. -/
structure MonthAssignmentEntry where
  assignmentId : Int
  projectId : Int
  allocationPercentage : ℚ
  overlapDays : Int

/-- One month of engine.get_staff_allocation_timeline. -/
structure MonthData where
  month : Int × Nat
  totalAllocation : ℚ
  isOverAllocated : Bool
  availableAllocation : ℚ
  assignments : List MonthAssignmentEntry

/-- Result of engine.get_staff_allocation_timeline. -/
structure Timeline where
  staffId : Int
  staffName : String
  monthlyAllocations : List MonthData

/-- One month of the loop of engine.get_staff_allocation_timeline: the
entries of the staff member's period-overlapping assignments that also
overlap the month, their allocations clamped to the month, and the
over-allocation flag `total_allocation > 100`. -/
def timelineMonthData (db : DB) (staffId : Int) (startDate endDate : Date)
    (ym : Int × Nat) : MonthData :=
  let assignments := db.assignments.filter (fun a =>
    a.staffId == staffId && dateLE a.startDate endDate && dateLE startDate a.endDate)
  let monthEnd := lastOfMonth ym
  let entries := assignments.filterMap (fun a =>
    if 0 < calculate_date_range_overlap (some a.startDate) (some a.endDate)
        (some (firstOfMonth ym)) (some monthEnd) then
      some ({ assignmentId := a.id, projectId := a.projectId,
              allocationPercentage := getAllocationForPeriod db.assignments a
                (some (firstOfMonth ym)) (some monthEnd),
              overlapDays := calculate_date_range_overlap (some a.startDate) (some a.endDate)
                (some (firstOfMonth ym)) (some monthEnd) } : MonthAssignmentEntry)
    else none)
  let totalAllocation := (entries.map (fun e => e.allocationPercentage)).sum
  { month := ym
    totalAllocation := totalAllocation
    isOverAllocated := decide (100 < totalAllocation)
    availableAllocation := max 0 (100 - totalAllocation)
    assignments := entries }

/-- engine.get_staff_allocation_timeline: assignments of the staff member
overlapping `[start_date, end_date]`, bucketed per calendar month
(`timelineMonthData`) from the month of `start_date` while
`current_month <= end_date`. -/
def get_staff_allocation_timeline (db : DB) (staffId : Int) (startDate endDate : Date) :
    Except String Timeline :=
  match db.staffs.find? (fun s => s.id == staffId) with
  | none => Except.error "Staff member not found"
  | some staff =>
    let months := monthList (startDate.year, startDate.month) endDate
    Except.ok { staffId := staffId
                staffName := staff.name
                monthlyAllocations := months.map (timelineMonthData db staffId startDate endDate) }

/-- Python `round(x, 1)` (round-half-even to a multiple of 1/10), on the exact
rationals of this embedding: the integer nearest to `10 x`, ties to even. -/
def roundHalfEven (q : ℚ) : Int :=
  let f := Rat.floor q
  let frac := q - f
  if frac < 1 / 2 then f
  else if 1 / 2 < frac then f + 1
  else if f % 2 = 0 then f else f + 1

/-- Python `round(q, 1)`. -/
def roundTo1 (q : ℚ) : ℚ := ((roundHalfEven (q * 10) : Int) : ℚ) / 10

/-- One over-allocated period of engine.detect_over_allocations; the stored
`over_allocation_amount` is `round(total - 100, 1)`. -/
structure OverPeriod where
  month : Int × Nat
  totalAllocation : ℚ
  overAllocationAmount : ℚ
  severity : String
  conflictingAssignments : List MonthAssignmentEntry

/-- Result of engine.detect_over_allocations. -/
structure DetectResult where
  hasConflicts : Bool
  overallSeverity : String
  overAllocatedPeriods : List OverPeriod
  conflictCount : Nat
  timeline : List MonthData

/-- Python `max()` of a non-empty list (the empty default is never hit in the
guarded caller). -/
def listMaxQ (l : List ℚ) : ℚ :=
  match l with
  | [] => 0
  | h :: t => t.foldl max h

/-- engine.detect_over_allocations.  The per-period severity uses the exact
excess; the overall severity maximizes over the *rounded* stored amounts. -/
def detect_over_allocations (db : DB) (staffId : Int) (startDate endDate : Date) :
    Except String DetectResult :=
  match db.staffs.find? (fun s => s.id == staffId) with
  | none => Except.error "Staff member not found"
  | some _ =>
    (get_staff_allocation_timeline db staffId startDate endDate).bind (fun timeline =>
      let overAllocatedPeriods := timeline.monthlyAllocations.filterMap (fun md =>
        if md.isOverAllocated then
          let overAllocationAmount := md.totalAllocation - 100
          some ({ month := md.month
                  totalAllocation := md.totalAllocation
                  overAllocationAmount := roundTo1 overAllocationAmount
                  severity := if 50 < overAllocationAmount then "critical"
                    else if 25 < overAllocationAmount then "high" else "moderate"
                  conflictingAssignments := md.assignments } : OverPeriod)
        else none)
      let hasConflicts := decide (0 < overAllocatedPeriods.length)
      let overallSeverity :=
        if overAllocatedPeriods.length = 0 then "none"
        else
          let maxOverAllocation :=
            listMaxQ (overAllocatedPeriods.map (fun p => p.overAllocationAmount))
          if 50 < maxOverAllocation then "critical"
          else if 25 < maxOverAllocation then "high" else "moderate"
      Except.ok { hasConflicts := hasConflicts
                  overallSeverity := overallSeverity
                  overAllocatedPeriods := overAllocatedPeriods
                  conflictCount := overAllocatedPeriods.length
                  timeline := timeline.monthlyAllocations })

/-- One conflict month of engine.validate_assignment_allocation (the rounded
fields mirror the `round(..., 1)` calls of the source). -/
structure MonthConflict where
  month : Int × Nat
  existingAllocation : ℚ
  newAllocation : ℚ
  projectedTotal : ℚ
  overAllocationAmount : ℚ
  existingAssignments : List (Int × ℚ)

/-- Result of engine.validate_assignment_allocation. -/
structure ValidationResult where
  isValid : Bool
  staffId : Int
  staffName : String
  conflicts : List MonthConflict
  conflictCount : Nat
  canOverride : Bool
  message : String

/-- One month of the loop of engine.validate_assignment_allocation: the month
allocations of the given (pre-filtered) existing assignments that overlap the
month, and the conflict record when their sum plus the proposed percentage
exceeds 100. -/
def validateMonthConflict (db : DB) (existingAssignments : List Assignment)
    (newAllocationPercentage : ℚ) (ym : Int × Nat) : Option MonthConflict :=
  let monthEnd := lastOfMonth ym
  let monthEntries := existingAssignments.filterMap (fun a =>
    if 0 < calculate_date_range_overlap (some a.startDate) (some a.endDate)
        (some (firstOfMonth ym)) (some monthEnd) then
      some (a.id, getAllocationForPeriod db.assignments a
        (some (firstOfMonth ym)) (some monthEnd))
    else none)
  let existingAllocation := (monthEntries.map (fun e => e.2)).sum
  let projectedTotal := existingAllocation + newAllocationPercentage
  if 100 < projectedTotal then
    some ({ month := ym
            existingAllocation := roundTo1 existingAllocation
            newAllocation := newAllocationPercentage
            projectedTotal := roundTo1 projectedTotal
            overAllocationAmount := roundTo1 (projectedTotal - 100)
            existingAssignments := monthEntries } : MonthConflict)
  else none

/-- engine.validate_assignment_allocation: existing assignments of the staff
member overlapping the proposed period (minus the optionally excluded id —
Python `if exclude_assignment_id:` also skips an id of 0), summed per calendar
month of the proposed period (`validateMonthConflict`); a month conflicts when
the sum plus the proposed percentage exceeds 100.  `can_override` is always
`True`. -/
def validate_assignment_allocation (db : DB) (staffId : Int)
    (newStartDate newEndDate : Date) (newAllocationPercentage : ℚ)
    (excludeAssignmentId : Option Int) : Except String ValidationResult :=
  match db.staffs.find? (fun s => s.id == staffId) with
  | none => Except.error "Staff member not found"
  | some staff =>
    let base : List Assignment := db.assignments.filter (fun a =>
      a.staffId == staffId && dateLE a.startDate newEndDate && dateLE newStartDate a.endDate)
    let existingAssignments : List Assignment := match excludeAssignmentId with
      | some eid => if eid ≠ 0 then base.filter (fun a => !(a.id == eid)) else base
      | none => base
    let months := monthList (newStartDate.year, newStartDate.month) newEndDate
    let conflicts := months.filterMap
      (validateMonthConflict db existingAssignments newAllocationPercentage)
    Except.ok { isValid := decide (conflicts.length = 0)
                staffId := staffId
                staffName := staff.name
                conflicts := conflicts
                conflictCount := conflicts.length
                canOverride := true
                message := if 0 < conflicts.length then "Assignment would cause over-allocation"
                  else "Assignment is valid" }

/-- Python `round(q, 2)`. -/
def roundTo2 (q : ℚ) : ℚ := ((roundHalfEven (q * 100) : Int) : ℚ) / 100

/-- Python `min()` over a non-empty list of dates (first minimum kept). -/
def dateListMin (l : List Date) : Date :=
  match l with
  | [] => ⟨1, 1, 1⟩
  | h :: t => t.foldl dateMin h

/-- Python `max()` over a non-empty list of dates (first maximum kept). -/
def dateListMax (l : List Date) : Date :=
  match l with
  | [] => ⟨1, 1, 1⟩
  | h :: t => t.foldl dateMax h

/-- planning_roles row (migration 002): a hypothetical role requirement of a
planning project, with month offsets relative to the project start. -/
structure PlanningRole where
  roleId : Int
  count : Nat
  startMonthOffset : Nat
  endMonthOffset : Option Nat := none
  allocationPercentage : ℚ := 100
  overlapMode : String := "efficient"
  hoursPerWeek : ℚ := 40

/-- planning_projects row with its roles embedded. -/
structure PlanningProject where
  id : Int
  name : String
  startDate : Date
  durationMonths : Nat
  planningRoles : List PlanningRole

/-- planning_exercises row with its projects embedded. -/
structure PlanningExercise where
  id : Int
  name : String
  planningProjects : List PlanningProject

/-- Modelled from the spec: `dateutil.relativedelta` month addition (the
t + relativedelta(months=k) used by the planning models, which are not under
src/): advance the month index by `k`, clamping the day to the target month's
length. -/
def addMonths (d : Date) (k : Nat) : Date :=
  let idx := 12 * d.year + (d.month : Int) - 1 + k
  let y := idx / 12
  let m := (idx % 12 + 1).toNat
  ⟨y, m, min d.day (daysInMonth y m)⟩

/-- Modelled from the spec: `PlanningProject.calculated_end_date` — the model
class is not under src/; spec §4.7 computes role and project ends as
"project start + month offsets", with the project end at
`start + duration_months` months. -/
def PlanningProject.calculatedEndDate (p : PlanningProject) : Date :=
  addMonths p.startDate p.durationMonths

/-- Modelled from the spec: `PlanningRole.calculated_start_date` — "role
start/end computed as project start + month offsets" (spec §4.7). -/
def PlanningRole.calculatedStartDate (p : PlanningProject) (r : PlanningRole) : Date :=
  addMonths p.startDate r.startMonthOffset

/-- Modelled from the spec: `PlanningRole.calculated_end_date`; a null
`end_month_offset` means the role runs to the project end (migration 002:
"null = project end"). -/
def PlanningRole.calculatedEndDate (p : PlanningProject) (r : PlanningRole) : Date :=
  match r.endMonthOffset with
  | some e => addMonths p.startDate e
  | none => p.calculatedEndDate

/-- One `projects` entry of a monthly requirement of
engine.generate_coverage_analysis. -/
structure ProjectContribution where
  projectId : Int
  projectName : String
  count : Nat
  allocationPercentage : ℚ
  overlapMode : String

/-- One month of a role's requirements in engine.generate_coverage_analysis. -/
structure MonthReq where
  count : Nat
  allocationTotal : ℚ
  projects : List ProjectContribution

/-- One role of engine.generate_coverage_analysis's `role_coverage`. -/
structure RoleCoverage where
  roleId : Int
  roleName : String
  roleHourlyCost : ℚ
  roleDefaultBillableRate : Option ℚ
  monthlyRequirements : List ((Int × Nat) × MonthReq)
  totalFte : ℚ

/-- Result of engine.generate_coverage_analysis. -/
structure Coverage where
  exerciseId : Int
  exerciseName : String
  months : List (Int × Nat)
  roleCoverage : List RoleCoverage

/-- engine.generate_coverage_analysis: month span across all projects and
roles of the exercise, then per role name and month the summed headcount and
allocation-weighted FTE.  `rolesTable` is the roles table (the
`planning_role.role` relationship; contributions whose role is missing are
skipped, `if not role: continue`). -/
def generate_coverage_analysis (rolesTable : List Role) (ex : PlanningExercise) :
    Except String Coverage :=
  if ex.planningProjects.isEmpty then Except.error "No projects in this planning exercise"
  else
    let allDates : List Date := ex.planningProjects.foldl (fun acc p =>
      p.planningRoles.foldl (fun acc2 r =>
        acc2 ++ [PlanningRole.calculatedStartDate p r, PlanningRole.calculatedEndDate p r])
        (acc ++ [p.startDate, p.calculatedEndDate])) []
    if allDates.isEmpty then Except.error "No dates found in planning exercise"
    else
      let startDate := dateListMin allDates
      let endDate := dateListMax allDates
      let endN := lastOfMonth (endDate.year, endDate.month)
      let months := monthList (startDate.year, startDate.month) endN
      let contribs : List (Role × PlanningProject × PlanningRole) :=
        ex.planningProjects.foldl (fun acc p =>
          p.planningRoles.foldl (fun acc2 pr =>
            match rolesTable.find? (fun r => r.id == pr.roleId) with
            | some role => acc2 ++ [(role, p, pr)]
            | none => acc2) acc) []
      let roleNames : List String := contribs.foldl (fun ns c =>
        if ns.contains c.1.name then ns else ns ++ [c.1.name]) []
      let roleCoverage : List RoleCoverage := roleNames.filterMap (fun rn =>
        match contribs.find? (fun c => c.1.name == rn) with
        | some c0 =>
          let group := contribs.filter (fun c => c.1.name == rn)
          let monthlyRequirements : List ((Int × Nat) × MonthReq) := months.map (fun ym =>
            let monthStart := firstOfMonth ym
            let monthEnd := lastOfMonth ym
            let md := group.foldl (fun (md : MonthReq) c =>
              let roleStart := PlanningRole.calculatedStartDate c.2.1 c.2.2
              let roleEnd := PlanningRole.calculatedEndDate c.2.1 c.2.2
              if dateLE roleStart monthEnd && dateLE monthStart roleEnd then
                { count := md.count + c.2.2.count
                  allocationTotal := md.allocationTotal +
                    (c.2.2.count : ℚ) * (c.2.2.allocationPercentage / 100)
                  projects := md.projects ++ [{ projectId := c.2.1.id
                                                projectName := c.2.1.name
                                                count := c.2.2.count
                                                allocationPercentage := c.2.2.allocationPercentage
                                                overlapMode := c.2.2.overlapMode }] }
              else md) ⟨0, 0, []⟩
            (ym, md))
          let totalFteMonths := (monthlyRequirements.map (fun m => m.2.allocationTotal)).sum
          some ({ roleId := c0.1.id
                  roleName := rn
                  roleHourlyCost := c0.1.hourlyCost
                  roleDefaultBillableRate := c0.1.defaultBillableRate
                  monthlyRequirements := monthlyRequirements
                  totalFte := if months.length = 0 then 0
                    else roundTo2 (totalFteMonths / (months.length : ℚ)) } : RoleCoverage)
        | none => none)
      let sortedRoles := roleCoverage.mergeSort (fun a b => decide (a.roleName ≤ b.roleName))
      Except.ok { exerciseId := ex.id
                  exerciseName := ex.name
                  months := months
                  roleCoverage := sortedRoles }

/-- One entry of engine.calculate_minimum_staff_per_role's
`staff_requirements` (the fields the claims speak about; `peak_allocation` is
stored as `round(peak_allocation, 2)`). -/
structure MinStaffEntry where
  roleId : Int
  roleName : String
  minimumStaffNeeded : Int
  peakMonth : Option (Int × Nat)
  peakCount : Nat
  peakAllocation : ℚ
  availableStaffCount : Nat
  newHiresNeeded : Int
  averageFte : ℚ

/-- The per-role body of engine.calculate_minimum_staff_per_role: the peak
fold (`if month_requirement > peak_allocation: ...` over the months in order)
and the mode-dependent minimum.  `suggestFn` stands for the
`suggest_staff_for_role` call (spec §4.6, an availability/scoring concern the
claims do not touch): it yields the suggested staff ids for a role at the
peak month, and only its length feeds `available_staff_count` /
`new_hires_needed`. -/
def minStaffEntryFor (overlapMode : String) (suggestFn : Int → Int × Nat → List Int)
    (rd : RoleCoverage) : MinStaffEntry :=
  let peak := rd.monthlyRequirements.foldl (fun (pk : ℚ × Nat × Option (Int × Nat)) mr =>
    let monthRequirement : ℚ :=
      if overlapMode = "conservative" then (mr.2.count : ℚ) else mr.2.allocationTotal
    if pk.1 < monthRequirement then (monthRequirement, mr.2.count, some mr.1) else pk)
    (0, 0, none)
  let minStaffNeeded : Int :=
    if overlapMode = "conservative" then (peak.2.1 : Int) else Int.ceil peak.1
  let suggestions := match peak.2.2 with
    | some pm => if rd.roleId ≠ 0 then suggestFn rd.roleId pm else []
    | none => []
  let availableStaffCount := suggestions.length
  { roleId := rd.roleId
    roleName := rd.roleName
    minimumStaffNeeded := minStaffNeeded
    peakMonth := peak.2.2
    peakCount := peak.2.1
    peakAllocation := roundTo2 peak.1
    availableStaffCount := availableStaffCount
    newHiresNeeded := max 0 (minStaffNeeded - (availableStaffCount : Int))
    averageFte := rd.totalFte }

/-- Result of engine.calculate_minimum_staff_per_role. -/
structure MinStaffResult where
  exerciseId : Int
  overlapMode : String
  staffRequirements : List MinStaffEntry
  totalMinimumStaff : Int
  totalNewHiresNeeded : Int

/-- engine.calculate_minimum_staff_per_role: coverage analysis, the per-role
peak reduction, sorted by `new_hires_needed` descending (Python stable sort
with `reverse=True`). -/
def calculate_minimum_staff_per_role (rolesTable : List Role) (ex : PlanningExercise)
    (overlapMode : String) (suggestFn : Int → Int × Nat → List Int) :
    Except String MinStaffResult :=
  (generate_coverage_analysis rolesTable ex).bind (fun coverage =>
    let minimumStaff := coverage.roleCoverage.map (minStaffEntryFor overlapMode suggestFn)
    let sorted := minimumStaff.mergeSort (fun a b => decide (b.newHiresNeeded ≤ a.newHiresNeeded))
    Except.ok { exerciseId := ex.id
                overlapMode := overlapMode
                staffRequirements := sorted
                totalMinimumStaff := (minimumStaff.map (fun r => r.minimumStaffNeeded)).sum
                totalNewHiresNeeded := (minimumStaff.map (fun r => r.newHiresNeeded)).sum })

/-!  Claim-side definitions: formulations taken from the wording of the
claims (for comparison against the source-side functions above). -/

/-- Claim side (C1): the proper ancestors of a project, nearest first. -/
def Project.ancestors : Project → List Project
  | .root _ _ _ _ _ => []
  | .child _ _ _ _ _ p => p :: p.ancestors

/-- Claim side (C1): a project's *own* explicit rate entry for a role. -/
def ownRate (p : Project) (roleId : Int) : Option ProjectRoleRate :=
  p.roleRates.find? (fun r => r.roleId == roleId)

/-- Claim side (C1): the nearest ancestor holding an own explicit rate for the
role, with that entry. -/
def nearestAncestorRate (p : Project) (roleId : Int) : Option (Project × ProjectRoleRate) :=
  p.ancestors.findSome? (fun anc => (ownRate anc roleId).map (fun r => (anc, r)))

/-- Claim side (C2): the number of all assignments of the same staff member
whose date range overlaps the period (regardless of project or allocation
type). -/
def overlappingAssignmentCount (allAssignments : List Assignment) (staffId : Int)
    (ps pe : Date) : Nat :=
  (allAssignments.filter (fun b =>
    b.staffId == staffId && dateLE b.startDate pe && dateLE ps b.endDate)).length

/-- Claim side (C3): the stored percentage of a calendar month, defaulting to
100 when the assignment has no `AssignmentMonthlyAllocation` row for it. -/
def specMonthPct (a : Assignment) (ym : Int × Nat) : ℚ :=
  ((a.monthlyAllocations.find? (fun ma =>
    ma.month.year == ym.1 && ma.month.month == ym.2)).map
      (fun ma => ma.allocationPercentage)).getD 100

/-- Claim side (C3): the inclusive day overlap of the period with a calendar
month. -/
def specOverlapInMonth (ps pe : Date) (ym : Int × Nat) : Int :=
  calculate_date_range_overlap (some ps) (some pe) (some (firstOfMonth ym))
    (some (lastOfMonth ym))

/-- Claim side (C3): the day-weighted average over the calendar months
intersecting the period —
`Σ (daysOverlapInMonth × monthPct) / Σ daysOverlapInMonth` — and 100 when the
period has zero overlapping days.  The months intersecting `[ps, pe]` are
exactly those from the month of `ps` through the month of `pe`, i.e.
`monthList (ps.year, ps.month) pe`. -/
def specWeightedAverage (a : Assignment) (ps pe : Date) : ℚ :=
  let months := monthList (ps.year, ps.month) pe
  let totalDays : Int := (months.map (specOverlapInMonth ps pe)).sum
  if 0 < totalDays then
    (months.map (fun ym => (specOverlapInMonth ps pe ym : ℚ) * specMonthPct a ym)).sum /
      (totalDays : ℚ)
  else 100

/-- Claim side (C4, as stated): the sum of effective allocations (clamped to
the month) over the staff member's assignments overlapping that month. -/
def claimMonthSum (db : DB) (staffId : Int) (ym : Int × Nat) : ℚ :=
  ((db.assignments.filter (fun a => a.staffId == staffId &&
      decide (0 < calculate_date_range_overlap (some a.startDate) (some a.endDate)
        (some (firstOfMonth ym)) (some (lastOfMonth ym))))).map
    (fun a => getAllocationForPeriod db.assignments a (some (firstOfMonth ym))
      (some (lastOfMonth ym)))).sum

/-- Amended claim side (C4): as `claimMonthSum`, but restricted to assignments
that also overlap the queried period `[sd, ed]` (which is what the code's
pre-filter does). -/
def amendedMonthSum (db : DB) (staffId : Int) (sd ed : Date) (ym : Int × Nat) : ℚ :=
  ((db.assignments.filter (fun a => a.staffId == staffId &&
      dateLE a.startDate ed && dateLE sd a.endDate &&
      decide (0 < calculate_date_range_overlap (some a.startDate) (some a.endDate)
        (some (firstOfMonth ym)) (some (lastOfMonth ym))))).map
    (fun a => getAllocationForPeriod db.assignments a (some (firstOfMonth ym))
      (some (lastOfMonth ym)))).sum

/-- Claim side (C4/C5): severity classification of an excess over 100. -/
def severityOfExcess (e : ℚ) : String :=
  if 50 < e then "critical" else if 25 < e then "high" else "moderate"

/-- Claim side (C5, as stated): the sum of the month allocations of the
staff member's existing assignments active in the month (optionally excluding
one assignment id) — with no restriction to the proposed period. -/
def claimExistingSum (db : DB) (staffId : Int) (excludeAssignmentId : Option Int)
    (ym : Int × Nat) : ℚ :=
  ((db.assignments.filter (fun a => a.staffId == staffId &&
      (match excludeAssignmentId with
       | some e => !(a.id == e)
       | none => true) &&
      decide (0 < calculate_date_range_overlap (some a.startDate) (some a.endDate)
        (some (firstOfMonth ym)) (some (lastOfMonth ym))))).map
    (fun a => getAllocationForPeriod db.assignments a (some (firstOfMonth ym))
      (some (lastOfMonth ym)))).sum

/-- Amended claim side (C5): as `claimExistingSum`, but restricted to existing
assignments that also overlap the proposed period `[ns, ne]`. -/
def amendedExistingSum (db : DB) (staffId : Int) (ns ne : Date)
    (excludeAssignmentId : Option Int) (ym : Int × Nat) : ℚ :=
  ((db.assignments.filter (fun a => a.staffId == staffId &&
      dateLE a.startDate ne && dateLE ns a.endDate &&
      (match excludeAssignmentId with
       | some e => !(a.id == e)
       | none => true) &&
      decide (0 < calculate_date_range_overlap (some a.startDate) (some a.endDate)
        (some (firstOfMonth ym)) (some (lastOfMonth ym))))).map
    (fun a => getAllocationForPeriod db.assignments a (some (firstOfMonth ym))
      (some (lastOfMonth ym)))).sum

/-- Claim side (C9): the raw summed headcount at the peak month — the maximum
over the months of the summed `count`. -/
def peakHeadcount (rd : RoleCoverage) : Nat :=
  (rd.monthlyRequirements.map (fun mr => mr.2.count)).foldr max 0

/-- Claim side (C9): the peak month's allocation-weighted FTE — the maximum
over the months of `allocation_total` (all of which are nonnegative). -/
def peakFte (rd : RoleCoverage) : ℚ :=
  (rd.monthlyRequirements.map (fun mr => mr.2.allocationTotal)).foldr max 0

/-!  Concrete example data used by the witnesses and counterexamples. -/

def rolePM : Role := ⟨1, "Project Manager", 60, some 150⟩

def roleEng : Role := ⟨2, "Engineer", 50, none⟩

def roleZero : Role := ⟨3, "Estimator", 40, some 0⟩

def exRoles : List Role := [rolePM, roleEng, roleZero]

def staffAlice : Staff :=
  { id := 1, name := "Alice", positionRole := some rolePM, internalHourlyCost := 55 }

def staffBob : Staff :=
  { id := 2, name := "Bob", positionRole := some roleEng, internalHourlyCost := 45 }

def staffCarol : Staff :=
  { id := 3, name := "Carol", positionRole := some roleZero, internalHourlyCost := 40 }

/-- A folder with an explicit Project Manager rate of 200. -/
def projParent : Project := .root 11 "Folder" none none [⟨1, 200⟩]

/-- A child with its own Project Manager rate of 120 (ancestor has 200). -/
def projChildOwn : Project := .child 10 "ChildOwn" none none [⟨1, 120⟩] projParent

/-- A child with no own rates whose parent folder has a rate. -/
def projChildInherit : Project := .child 12 "ChildInherit" none none [] projParent

/-- A root project with no rates, dated 2025-01-01 .. 2025-03-31. -/
def projBare : Project := .root 13 "Bare" (some ⟨2025, 1, 1⟩) (some ⟨2025, 3, 31⟩) []

/-- A project with no dates. -/
def projNoDates : Project := .root 20 "NoDates" none none []

def aTier1 : Assignment :=
  { id := 101, staffId := 1, staffMember := some staffAlice, projectId := 10,
    project := some projChildOwn, startDate := ⟨2025, 1, 1⟩, endDate := ⟨2025, 3, 31⟩,
    roleOnProject := "Project Manager" }

def aTier2 : Assignment :=
  { id := 102, staffId := 1, staffMember := some staffAlice, projectId := 12,
    project := some projChildInherit, startDate := ⟨2025, 1, 1⟩, endDate := ⟨2025, 3, 31⟩,
    roleOnProject := "Project Manager" }

def aTier3 : Assignment :=
  { id := 103, staffId := 1, staffMember := some staffAlice, projectId := 13,
    project := some projBare, startDate := ⟨2025, 1, 1⟩, endDate := ⟨2025, 3, 31⟩,
    roleOnProject := "Project Manager" }

def aTier4 : Assignment :=
  { id := 104, staffId := 2, staffMember := some staffBob, projectId := 13,
    project := some projBare, startDate := ⟨2025, 1, 1⟩, endDate := ⟨2025, 3, 31⟩,
    roleOnProject := "Engineer" }

def aZeroRate : Assignment :=
  { id := 105, staffId := 3, staffMember := some staffCarol, projectId := 13,
    project := some projBare, startDate := ⟨2025, 1, 1⟩, endDate := ⟨2025, 3, 31⟩,
    roleOnProject := "Estimator" }

def aSplit : Assignment :=
  { id := 201, staffId := 1, staffMember := some staffAlice, projectId := 13,
    project := some projBare, startDate := ⟨2025, 1, 1⟩, endDate := ⟨2025, 6, 30⟩,
    allocationType := "split_by_projects" }

def aOtherFull : Assignment :=
  { id := 202, staffId := 1, staffMember := some staffAlice, projectId := 14,
    project := none, startDate := ⟨2025, 3, 1⟩, endDate := ⟨2025, 9, 30⟩ }

def aMonthly : Assignment :=
  { id := 301, staffId := 1, staffMember := some staffAlice, projectId := 13,
    project := some projBare, startDate := ⟨2025, 4, 1⟩, endDate := ⟨2025, 5, 31⟩,
    allocationType := "percentage_monthly",
    monthlyAllocations := [⟨⟨2025, 4, 1⟩, 50⟩, ⟨⟨2025, 5, 1⟩, 100⟩] }

def aFull1 : Assignment :=
  { id := 401, staffId := 1, staffMember := some staffAlice, projectId := 13,
    project := some projBare, startDate := ⟨2025, 1, 1⟩, endDate := ⟨2025, 3, 31⟩ }

def aFull2 : Assignment :=
  { id := 402, staffId := 1, staffMember := some staffAlice, projectId := 13,
    project := some projBare, startDate := ⟨2025, 2, 1⟩, endDate := ⟨2025, 4, 30⟩ }

/-- Two overlapping full-time assignments of the same staff member. -/
def dbC4 : DB :=
  { roles := exRoles, staffs := [staffAlice], projects := [projBare],
    assignments := [aFull1, aFull2] }

def aShort : Assignment :=
  { id := 403, staffId := 1, staffMember := some staffAlice, projectId := 13,
    project := none, startDate := ⟨2025, 1, 1⟩, endDate := ⟨2025, 1, 5⟩ }

def aLong : Assignment :=
  { id := 404, staffId := 1, staffMember := some staffAlice, projectId := 13,
    project := none, startDate := ⟨2025, 1, 1⟩, endDate := ⟨2025, 1, 31⟩ }

/-- Counterexample data for C4: `aShort` overlaps January but not the queried
period starting 2025-01-15. -/
def dbC4x : DB :=
  { roles := exRoles, staffs := [staffAlice], projects := [],
    assignments := [aShort, aLong] }

def aEarly : Assignment :=
  { id := 501, staffId := 1, staffMember := some staffAlice, projectId := 13,
    project := none, startDate := ⟨2025, 1, 1⟩, endDate := ⟨2025, 1, 10⟩ }

/-- Counterexample data for C5: `aEarly` is active in January but ends before
the proposed start 2025-01-20. -/
def dbC5x : DB :=
  { roles := exRoles, staffs := [staffAlice], projects := [], assignments := [aEarly] }

/-- A project with dates and zero assignments, and a project with no dates. -/
def dbC7 : DB :=
  { roles := exRoles, staffs := [staffAlice], projects := [projNoDates, projBare],
    assignments := [] }

/-- One dated project with one full-time assignment. -/
def dbC8 : DB :=
  { roles := exRoles, staffs := [staffAlice], projects := [projBare],
    assignments := [aTier3] }

def dbC1 : DB :=
  { roles := exRoles, staffs := [staffAlice, staffBob, staffCarol],
    projects := [projChildOwn, projChildInherit, projBare],
    assignments := [aTier1, aTier2, aTier3, aTier4, aZeroRate] }

def prPlanPM : PlanningRole :=
  { roleId := 1, count := 2, startMonthOffset := 0, allocationPercentage := 50 }

def ppPlanA : PlanningProject :=
  { id := 1, name := "PlanA", startDate := ⟨2025, 1, 1⟩, durationMonths := 1,
    planningRoles := [prPlanPM] }

def exerciseA : PlanningExercise :=
  { id := 1, name := "ExerciseA", planningProjects := [ppPlanA] }

/-!  Theorems. -/

theorem toOrdinal_dateMax (a b : Date) :
    toOrdinal (dateMax a b) = max (toOrdinal a) (toOrdinal b) := by
  unfold dateMax
  split <;> omega

theorem toOrdinal_dateMin (a b : Date) :
    toOrdinal (dateMin a b) = min (toOrdinal a) (toOrdinal b) := by
  unfold dateMin
  split <;> omega

/-- Claim C6: the overlap primitive `calculate_date_range_overlap` is
symmetric in its two range arguments; returns 0 when any of the four dates is
missing or when the ranges do not intersect (max of the starts exceeds min of
the ends); and returns the inclusive day count `(end - start).days + 1` of the
contained range when one range fully contains the other, in particular when
the two ranges are equal. -/
theorem claim_C6 :
    (∀ s1 e1 s2 e2 : Option Date,
      calculate_date_range_overlap s1 e1 s2 e2 = calculate_date_range_overlap s2 e2 s1 e1) ∧
    (∀ s1 e1 s2 e2 : Option Date, s1 = none ∨ e1 = none ∨ s2 = none ∨ e2 = none →
      calculate_date_range_overlap s1 e1 s2 e2 = 0) ∧
    (∀ s1 e1 s2 e2 : Date,
      min (toOrdinal e1) (toOrdinal e2) < max (toOrdinal s1) (toOrdinal s2) →
      calculate_date_range_overlap (some s1) (some e1) (some s2) (some e2) = 0) ∧
    (∀ s1 e1 s2 e2 : Date, toOrdinal s1 ≤ toOrdinal s2 → toOrdinal e2 ≤ toOrdinal e1 →
      toOrdinal s2 ≤ toOrdinal e2 →
      calculate_date_range_overlap (some s1) (some e1) (some s2) (some e2) =
        toOrdinal e2 - toOrdinal s2 + 1) ∧
    (∀ s e : Date, toOrdinal s ≤ toOrdinal e →
      calculate_date_range_overlap (some s) (some e) (some s) (some e) =
        toOrdinal e - toOrdinal s + 1) := by
  refine ⟨?_, ?_, ?_, ?_, ?_⟩
  · intro s1 e1 s2 e2
    cases s1 <;> cases e1 <;> cases s2 <;> cases e2 <;>
      simp only [calculate_date_range_overlap, toOrdinal_dateMax, toOrdinal_dateMin] <;>
      split_ifs <;> omega
  · intro s1 e1 s2 e2 h
    cases s1 <;> cases e1 <;> cases s2 <;> cases e2 <;>
      simp_all [calculate_date_range_overlap]
  · intro s1 e1 s2 e2 h
    simp only [calculate_date_range_overlap, toOrdinal_dateMax, toOrdinal_dateMin]
    rw [if_neg]
    omega
  · intro s1 e1 s2 e2 h1 h2 h3
    simp only [calculate_date_range_overlap, toOrdinal_dateMax, toOrdinal_dateMin]
    rw [if_pos] <;> omega
  · intro s e h
    simp only [calculate_date_range_overlap, toOrdinal_dateMax, toOrdinal_dateMin]
    rw [if_pos] <;> omega

/-- Witness for C6 at concrete dates: disjoint ranges, a missing date, a
containment pair and an equal pair around January 2025. -/
theorem witness_C6 :
    calculate_date_range_overlap none (some ⟨2025, 1, 2⟩) (some ⟨2025, 1, 5⟩)
      (some ⟨2025, 1, 6⟩) = 0 ∧
    calculate_date_range_overlap (some ⟨2025, 1, 1⟩) (some ⟨2025, 1, 2⟩)
      (some ⟨2025, 1, 5⟩) (some ⟨2025, 1, 6⟩) = 0 ∧
    calculate_date_range_overlap (some ⟨2025, 1, 1⟩) (some ⟨2025, 1, 31⟩)
      (some ⟨2025, 1, 10⟩) (some ⟨2025, 1, 20⟩) = 11 ∧
    calculate_date_range_overlap (some ⟨2025, 1, 10⟩) (some ⟨2025, 1, 20⟩)
      (some ⟨2025, 1, 10⟩) (some ⟨2025, 1, 20⟩) = 11 := by
  refine ⟨?_, ?_, ?_, ?_⟩
  · exact claim_C6.2.1 none (some ⟨2025, 1, 2⟩) (some ⟨2025, 1, 5⟩) (some ⟨2025, 1, 6⟩)
      (Or.inl rfl)
  · have h := claim_C6.2.2.1 ⟨2025, 1, 1⟩ ⟨2025, 1, 2⟩ ⟨2025, 1, 5⟩ ⟨2025, 1, 6⟩ (by decide)
    exact h
  · have h := claim_C6.2.2.2.1 ⟨2025, 1, 1⟩ ⟨2025, 1, 31⟩ ⟨2025, 1, 10⟩ ⟨2025, 1, 20⟩
      (by decide) (by decide) (by decide)
    rw [h]
    decide
  · have h := claim_C6.2.2.2.2 ⟨2025, 1, 10⟩ ⟨2025, 1, 20⟩ (by decide)
    rw [h]
    decide

theorem nearestAncestorRate_child (i : Int) (n : String) (sd ed : Option Date)
    (rr : List ProjectRoleRate) (q : Project) (rid : Int) :
    nearestAncestorRate (.child i n sd ed rr q) rid =
      match ownRate q rid with
      | some r => some (q, r)
      | none => nearestAncestorRate q rid := by
  simp only [nearestAncestorRate, Project.ancestors, List.findSome?_cons]
  cases ownRate q rid <;> rfl

theorem getRoleRate_eq : ∀ (p : Project) (rid : Int),
    p.getRoleRate rid =
      match ownRate p rid with
      | some entry => some ⟨entry.billableRate, false, p.pid⟩
      | none => (nearestAncestorRate p rid).map
          (fun x => ⟨x.2.billableRate, true, x.1.pid⟩)
  | .root i n sd ed rr, rid => by
    cases hf : rr.find? (fun r => r.roleId == rid) with
    | some entry =>
      have hown : ownRate (.root i n sd ed rr) rid = some entry := hf
      rw [hown]
      show (match rr.find? (fun r => r.roleId == rid) with
        | some r => some (⟨r.billableRate, false, i⟩ : RateInfo)
        | none => none) = _
      rw [hf]
      rfl
    | none =>
      have hown : ownRate (.root i n sd ed rr) rid = none := hf
      rw [hown]
      show (match rr.find? (fun r => r.roleId == rid) with
        | some r => some (⟨r.billableRate, false, i⟩ : RateInfo)
        | none => none) = _
      rw [hf]
      rfl
  | .child i n sd ed rr q, rid => by
    cases hf : rr.find? (fun r => r.roleId == rid) with
    | some entry =>
      have hown : ownRate (.child i n sd ed rr q) rid = some entry := hf
      rw [hown]
      show (match rr.find? (fun r => r.roleId == rid) with
        | some r => some (⟨r.billableRate, false, i⟩ : RateInfo)
        | none => retagInherited (q.getRoleRate rid)) = _
      rw [hf]
      rfl
    | none =>
      have hown : ownRate (.child i n sd ed rr q) rid = none := hf
      rw [hown]
      show (match rr.find? (fun r => r.roleId == rid) with
        | some r => some (⟨r.billableRate, false, i⟩ : RateInfo)
        | none => retagInherited (q.getRoleRate rid)) = _
      rw [hf]
      rw [nearestAncestorRate_child, getRoleRate_eq q rid]
      cases hq : ownRate q rid with
      | some e2 => rfl
      | none =>
        cases hn : nearestAncestorRate q rid with
        | some x => rfl
        | none => rfl

/-- Claim C1: `get_effective_billable_rate` resolves in exactly three tiers by
the role named in `role_on_project`: an explicit own `ProjectRoleRate` of the
assignment's project wins with source `project_role_rate` (ignoring any
ancestor's rate); otherwise the nearest ancestor holding an explicit rate
supplies it with source `inherited_project_role_rate`; otherwise the staff
member's role's (nonzero) `default_billable_rate` with source
`role_default_billable_rate`; otherwise rate 0 with source `none` (the zero
default case is claim C10). -/
theorem claim_C1 : ∀ (db : DB) (a : Assignment) (p : Project) (role : Role),
    a.project = some p → a.roleOnProject ≠ "" →
    db.roles.find? (fun r => r.name == a.roleOnProject) = some role →
    ((∀ entry, ownRate p role.id = some entry →
       get_effective_billable_rate db.roles a = (entry.billableRate, "project_role_rate")) ∧
     (∀ anc entry, ownRate p role.id = none →
       nearestAncestorRate p role.id = some (anc, entry) →
       get_effective_billable_rate db.roles a =
         (entry.billableRate, "inherited_project_role_rate")) ∧
     (∀ s r, ownRate p role.id = none → nearestAncestorRate p role.id = none →
       a.staffMember = some s → s.defaultBillableRate = some r → r ≠ 0 →
       get_effective_billable_rate db.roles a = (r, "role_default_billable_rate")) ∧
     (ownRate p role.id = none → nearestAncestorRate p role.id = none →
       (∀ s, a.staffMember = some s → s.defaultBillableRate = none) →
       get_effective_billable_rate db.roles a = (0, "none"))) := by
  intro db a p role hproj hrole hfind
  have hbase : ∀ (ri : Option RateInfo), p.getRoleRate role.id = ri →
      get_effective_billable_rate db.roles a =
        (match ri with
         | some info => (info.rate,
             if info.isInherited then "inherited_project_role_rate" else "project_role_rate")
         | none =>
           match a.staffMember with
           | some s =>
             match s.defaultBillableRate with
             | some r => if r ≠ 0 then (r, "role_default_billable_rate") else (0, "none")
             | none => (0, "none")
           | none => (0, "none")) := by
    intro ri hri
    unfold get_effective_billable_rate get_role_rate_by_name
    rw [hproj, hfind]
    simp only [if_pos hrole, hri]
    match ri with
    | some info => rfl
    | none => rfl
  refine ⟨?_, ?_, ?_, ?_⟩
  · intro entry hown
    have h := getRoleRate_eq p role.id
    rw [hown] at h
    rw [hbase _ h]
    rfl
  · intro anc entry hown hanc
    have h := getRoleRate_eq p role.id
    rw [hown, hanc] at h
    rw [hbase _ h]
    rfl
  · intro s r hown hanc hs hd hr
    have h := getRoleRate_eq p role.id
    rw [hown, hanc] at h
    rw [hbase _ h]
    simp [hs, hd, hr]
  · intro hown hanc hnone
    have h := getRoleRate_eq p role.id
    rw [hown, hanc] at h
    rw [hbase _ h]
    cases hsm : a.staffMember with
    | some s => simp [hsm, hnone s hsm]
    | none => simp [hsm]

/-- Witness for C1: the four tiers at concrete data — own rate 120 beats the
ancestor's 200; the rate-less child inherits 200; a bare project falls back to
the role default 150; a role with no default yields rate 0, source none. -/
theorem witness_C1 :
    get_effective_billable_rate dbC1.roles aTier1 = (120, "project_role_rate") ∧
    get_effective_billable_rate dbC1.roles aTier2 = (200, "inherited_project_role_rate") ∧
    get_effective_billable_rate dbC1.roles aTier3 = (150, "role_default_billable_rate") ∧
    get_effective_billable_rate dbC1.roles aTier4 = (0, "none") := by
  refine ⟨?_, ?_, ?_, ?_⟩
  · exact (claim_C1 dbC1 aTier1 projChildOwn rolePM rfl (by decide) rfl).1 ⟨1, 120⟩ rfl
  · exact (claim_C1 dbC1 aTier2 projChildInherit rolePM rfl (by decide) rfl).2.1
      projParent ⟨1, 200⟩ rfl rfl
  · exact (claim_C1 dbC1 aTier3 projBare rolePM rfl (by decide) rfl).2.2.1
      staffAlice 150 rfl rfl rfl rfl (by norm_num)
  · exact (claim_C1 dbC1 aTier4 projBare roleEng rfl (by decide) rfl).2.2.2
      rfl rfl (by intro s hs; cases hs; rfl)

/-- Claim C10: when the project-hierarchy rate lookup misses and the staff
member's role's `default_billable_rate` is exactly 0, the result is rate 0
with source `none` — indistinguishable from having no default rate at all. -/
theorem claim_C10 : ∀ (db : DB) (a : Assignment) (s : Staff),
    (∀ p, a.project = some p → get_role_rate_by_name db.roles p a.roleOnProject = none) →
    a.staffMember = some s →
    ((s.defaultBillableRate = some 0 →
       get_effective_billable_rate db.roles a = (0, "none")) ∧
     (s.defaultBillableRate = none →
       get_effective_billable_rate db.roles a = (0, "none"))) := by
  intro db a s hmiss hs
  constructor
  · intro hzero
    cases hp : a.project with
    | some p =>
      simp only [get_effective_billable_rate, hp, hmiss p hp, hs, hzero, ite_self]
      norm_num
    | none =>
      simp only [get_effective_billable_rate, hp, hs, hzero]
      norm_num
  · intro hnone
    cases hp : a.project with
    | some p =>
      simp only [get_effective_billable_rate, hp, hmiss p hp, hs, hnone, ite_self]
    | none =>
      simp only [get_effective_billable_rate, hp, hs, hnone]

/-- Witness for C10: Carol's role stores a default rate of exactly 0; her
assignment on a rate-less project resolves to rate 0 with source none, exactly
as Bob whose role has no default at all. -/
theorem witness_C10 :
    get_effective_billable_rate dbC1.roles aZeroRate = (0, "none") ∧
    staffCarol.defaultBillableRate = some 0 := by
  constructor
  · exact (claim_C10 dbC1 aZeroRate staffCarol
      (by intro p hp; cases hp; rfl) rfl).1 rfl
  · rfl

theorem monthList_eq (ym : Int × Nat) (pe : Date) :
    monthList ym pe =
      if dateLE (firstOfMonth ym) pe then ym :: monthList (nextMonth ym) pe else [] := by
  rw [monthList]

/-- Claim C2: for a `split_by_projects` assignment the effective allocation
for a period is `100 / n`, where `n` counts all assignments of the same staff
member overlapping the period (any project, any allocation type, itself
included); in particular a second overlapping assignment changes an existing
assignment's effective allocation from 100 to 50 while the stored
`allocation_percentage` stays 100. -/
theorem claim_C2 :
    (∀ (allAssignments : List Assignment) (a : Assignment) (ps pe : Date),
      a.allocationType = "split_by_projects" → a ∈ allAssignments →
      dateLE a.startDate pe = true → dateLE ps a.endDate = true →
      0 < overlappingAssignmentCount allAssignments a.staffId ps pe ∧
      getAllocationForPeriod allAssignments a (some ps) (some pe) =
        100 / (overlappingAssignmentCount allAssignments a.staffId ps pe : ℚ)) ∧
    (getAllocationForPeriod [aSplit] aSplit (some ⟨2025, 1, 1⟩) (some ⟨2025, 6, 30⟩) = 100 ∧
     getAllocationForPeriod [aSplit, aOtherFull] aSplit
       (some ⟨2025, 1, 1⟩) (some ⟨2025, 6, 30⟩) = 50 ∧
     aSplit.allocationPercentage = 100) := by
  have hgen : ∀ (allAssignments : List Assignment) (a : Assignment) (ps pe : Date),
      a.allocationType = "split_by_projects" → a ∈ allAssignments →
      dateLE a.startDate pe = true → dateLE ps a.endDate = true →
      0 < overlappingAssignmentCount allAssignments a.staffId ps pe ∧
      getAllocationForPeriod allAssignments a (some ps) (some pe) =
        100 / (overlappingAssignmentCount allAssignments a.staffId ps pe : ℚ) := by
    intro allA a ps pe htype hmem h1 h2
    have hmemf : a ∈ allA.filter (fun b =>
        b.staffId == a.staffId && dateLE b.startDate pe && dateLE ps b.endDate) := by
      refine List.mem_filter.mpr ⟨hmem, ?_⟩
      simp [h1, h2]
    have hpos : 0 < (allA.filter (fun b =>
        b.staffId == a.staffId && dateLE b.startDate pe && dateLE ps b.endDate)).length :=
      List.length_pos.mpr (List.ne_nil_of_mem hmemf)
    refine ⟨hpos, ?_⟩
    simp only [getAllocationForPeriod, htype, Option.getD_some]
    rw [if_neg (by decide), if_neg (by decide), if_pos trivial, if_pos hpos]
    rfl
  refine ⟨hgen, ?_, ?_, rfl⟩
  · have h := (hgen [aSplit] aSplit ⟨2025, 1, 1⟩ ⟨2025, 6, 30⟩ rfl
      (List.mem_singleton.mpr rfl) (by decide) (by decide)).2
    rw [h]
    have hc : overlappingAssignmentCount [aSplit] aSplit.staffId ⟨2025, 1, 1⟩ ⟨2025, 6, 30⟩ = 1 := by
      decide
    rw [hc]
    norm_num
  · have h := (hgen [aSplit, aOtherFull] aSplit ⟨2025, 1, 1⟩ ⟨2025, 6, 30⟩ rfl
      (List.mem_cons_self _ _) (by decide) (by decide)).2
    rw [h]
    have hc : overlappingAssignmentCount [aSplit, aOtherFull] aSplit.staffId
        ⟨2025, 1, 1⟩ ⟨2025, 6, 30⟩ = 2 := by decide
    rw [hc]
    norm_num

/-- Witness for C2: the general split rule instantiated on Alice's two
overlapping assignments. -/
theorem witness_C2 :
    0 < overlappingAssignmentCount [aSplit, aOtherFull] aSplit.staffId
      ⟨2025, 1, 1⟩ ⟨2025, 6, 30⟩ ∧
    getAllocationForPeriod [aSplit, aOtherFull] aSplit (some ⟨2025, 1, 1⟩)
      (some ⟨2025, 6, 30⟩) =
      100 / (overlappingAssignmentCount [aSplit, aOtherFull] aSplit.staffId
        ⟨2025, 1, 1⟩ ⟨2025, 6, 30⟩ : ℚ) :=
  claim_C2.1 [aSplit, aOtherFull] aSplit ⟨2025, 1, 1⟩ ⟨2025, 6, 30⟩ rfl
    (List.mem_cons_self _ _) (by decide) (by decide)

theorem monthlyStep_eq (a : Assignment) (ps pe : Date) (acc : Int × ℚ) (ym : Int × Nat) :
    monthlyStep a ps pe acc ym =
      (acc.1 + specOverlapInMonth ps pe ym,
       acc.2 + (specOverlapInMonth ps pe ym : ℚ) * specMonthPct a ym) := by
  have hover : specOverlapInMonth ps pe ym =
      if 0 < toOrdinal (dateMin (lastOfMonth ym) pe) -
          toOrdinal (dateMax (firstOfMonth ym) ps) + 1 then
        toOrdinal (dateMin (lastOfMonth ym) pe) -
          toOrdinal (dateMax (firstOfMonth ym) ps) + 1
      else 0 := by
    unfold specOverlapInMonth calculate_date_range_overlap
    simp only [toOrdinal_dateMax, toOrdinal_dateMin]
    split_ifs <;> omega
  simp only [monthlyStep]
  split_ifs with h
  · rw [hover, if_pos h]
    rfl
  · rw [hover, if_neg h]
    simp

theorem monthly_fold_eq (a : Assignment) (ps pe : Date) (months : List (Int × Nat)) :
    ∀ init : Int × ℚ, months.foldl (monthlyStep a ps pe) init =
      (init.1 + (months.map (specOverlapInMonth ps pe)).sum,
       init.2 + (months.map (fun ym =>
         (specOverlapInMonth ps pe ym : ℚ) * specMonthPct a ym)).sum) := by
  induction months with
  | nil => intro init; simp
  | cons ym t ih =>
    intro init
    rw [List.foldl_cons, monthlyStep_eq, ih]
    simp [add_assoc]

theorem sum_map_cast_mul_const (l : List (Int × Nat)) (f : Int × Nat → Int) (c : ℚ) :
    (l.map (fun x => ((f x : Int) : ℚ) * c)).sum = c * (((l.map f).sum : Int) : ℚ) := by
  induction l with
  | nil => simp
  | cons h t ih =>
    simp only [List.map_cons, List.sum_cons, ih]
    push_cast
    ring

/-- Claim C3: for a `percentage_monthly` assignment the effective allocation
over a period is the day-weighted average over the calendar months
intersecting the period (month percentages default to 100 when no
`AssignmentMonthlyAllocation` row exists), and 100 when the period has zero
overlapping days; in particular a two-month assignment with percentages
[50, 100] over a 30-day and a 31-day month lies strictly between 50 and 100. -/
theorem claim_C3 :
    (∀ (allAssignments : List Assignment) (a : Assignment) (ps pe : Date),
      a.allocationType = "percentage_monthly" →
      getAllocationForPeriod allAssignments a (some ps) (some pe) =
        specWeightedAverage a ps pe) ∧
    (50 < effectiveAllocation [aMonthly] aMonthly ∧
     effectiveAllocation [aMonthly] aMonthly < 100) := by
  have hgen : ∀ (allAssignments : List Assignment) (a : Assignment) (ps pe : Date),
      a.allocationType = "percentage_monthly" →
      getAllocationForPeriod allAssignments a (some ps) (some pe) =
        specWeightedAverage a ps pe := by
    intro allA a ps pe htype
    simp only [getAllocationForPeriod, htype, Option.getD_some]
    rw [if_neg (by decide), if_neg (by decide), if_neg (by decide), if_pos trivial]
    by_cases hempty : a.monthlyAllocations.isEmpty = true
    · rw [if_pos hempty]
      have hlist : a.monthlyAllocations = [] := by
        cases hl : a.monthlyAllocations with
        | nil => rfl
        | cons x xs => rw [hl] at hempty; simp [List.isEmpty] at hempty
      have hpct : ∀ ym, specMonthPct a ym = 100 := by
        intro ym
        unfold specMonthPct
        rw [hlist]
        rfl
      unfold specWeightedAverage
      by_cases hS : 0 < ((monthList (ps.year, ps.month) pe).map (specOverlapInMonth ps pe)).sum
      · rw [if_pos hS]
        have hmapeq : ((monthList (ps.year, ps.month) pe).map (fun ym =>
            (specOverlapInMonth ps pe ym : ℚ) * specMonthPct a ym)) =
            (monthList (ps.year, ps.month) pe).map (fun ym =>
              (specOverlapInMonth ps pe ym : ℚ) * 100) := by
          apply List.map_congr_left
          intro ym _
          rw [hpct ym]
        rw [hmapeq, sum_map_cast_mul_const]
        have hne : (((((monthList (ps.year, ps.month) pe).map
            (specOverlapInMonth ps pe)).sum : Int)) : ℚ) ≠ 0 := by
          have : (0 : ℚ) < ((((monthList (ps.year, ps.month) pe).map
              (specOverlapInMonth ps pe)).sum : Int) : ℚ) := by
            exact_mod_cast hS
          linarith
        rw [mul_div_assoc, div_self hne, mul_one]
      · rw [if_neg hS]
    · rw [if_neg hempty, monthly_fold_eq]
      simp only [zero_add]
      unfold specWeightedAverage
      rfl
  have hm : monthList (2025, 4) (⟨2025, 5, 31⟩ : Date) = [(2025, 4), (2025, 5)] := by
    rw [monthList_eq, if_pos (by decide), show nextMonth (2025, 4) = (2025, 5) by decide,
      monthList_eq, if_pos (by decide), show nextMonth (2025, 5) = (2025, 6) by decide,
      monthList_eq, if_neg (by decide)]
  have hov4 : specOverlapInMonth ⟨2025, 4, 1⟩ ⟨2025, 5, 31⟩ (2025, 4) = 30 := by decide
  have hov5 : specOverlapInMonth ⟨2025, 4, 1⟩ ⟨2025, 5, 31⟩ (2025, 5) = 31 := by decide
  have hp4 : specMonthPct aMonthly (2025, 4) = 50 := by
    unfold specMonthPct aMonthly
    rw [List.find?_cons_of_pos _ (by decide)]
    rfl
  have hp5 : specMonthPct aMonthly (2025, 5) = 100 := by
    unfold specMonthPct aMonthly
    rw [List.find?_cons_of_neg _ (by decide), List.find?_cons_of_pos _ (by decide)]
    rfl
  have hval : specWeightedAverage aMonthly ⟨2025, 4, 1⟩ ⟨2025, 5, 31⟩ = 4600 / 61 := by
    unfold specWeightedAverage
    rw [hm]
    simp only [List.map_cons, List.map_nil, List.sum_cons, List.sum_nil, hov4, hov5, hp4, hp5]
    norm_num
  have heq : effectiveAllocation [aMonthly] aMonthly =
      specWeightedAverage aMonthly ⟨2025, 4, 1⟩ ⟨2025, 5, 31⟩ :=
    hgen [aMonthly] aMonthly ⟨2025, 4, 1⟩ ⟨2025, 5, 31⟩ rfl
  refine ⟨hgen, ?_, ?_⟩
  · rw [heq, hval]
    norm_num
  · rw [heq, hval]
    norm_num

/-- Witness for C3: the weighted-average rule instantiated on the [50, 100]
April–May assignment. -/
theorem witness_C3 :
    getAllocationForPeriod [aMonthly] aMonthly (some ⟨2025, 4, 1⟩) (some ⟨2025, 5, 31⟩) =
      specWeightedAverage aMonthly ⟨2025, 4, 1⟩ ⟨2025, 5, 31⟩ :=
  claim_C3.1 [aMonthly] aMonthly ⟨2025, 4, 1⟩ ⟨2025, 5, 31⟩ rfl

theorem weekLoop_nil (allAssignments : List Assignment) (endOrd cur : Int) (acc : WeeklyAcc) :
    weekLoop allAssignments [] endOrd cur acc = acc := by
  rw [weekLoop]
  split_ifs with h
  · rw [show weekStep allAssignments [] cur acc = acc from rfl]
    exact weekLoop_nil allAssignments endOrd (cur + 7) acc
  · rfl
termination_by (endOrd + 1 - cur).toNat
decreasing_by omega

/-- Claim C7: a project without start or end date (and no explicit dates
supplied) makes `calculate_project_staffing_needs` fail with a domain error
and no partial output; a dated project with zero assignments yields the
complete result structure with empty weekly buckets and all four cost totals
zero. -/
theorem claim_C7 :
    (∀ (db : DB) (projectId : Int) (p : Project),
      db.projects.find? (fun q => q.pid == projectId) = some p →
      p.startDate = none ∨ p.endDate = none →
      calculate_project_staffing_needs db projectId none none =
        Except.error "Project must have start and end dates, or dates must be provided") ∧
    (∀ (db : DB) (projectId : Int) (p : Project) (sd ed : Date),
      db.projects.find? (fun q => q.pid == projectId) = some p →
      p.startDate = some sd → p.endDate = some ed →
      db.assignments.filter (fun a => a.projectId == projectId) = [] →
      calculate_project_staffing_needs db projectId none none =
        Except.ok { projectId := projectId
                    projectName := p.pname
                    forecastStart := sd
                    forecastEnd := ed
                    weeklyStaffing := []
                    weeklyStaffingRaw := []
                    staffBreakdown := []
                    totalEstimatedCost := 0
                    totalInternalCost := 0
                    totalAllocatedCost := 0
                    totalAllocatedInternalCost := 0
                    assignmentsCount := 0 }) := by
  constructor
  · intro db projectId p hfind hnone
    rcases hnone with hn | hn
    · cases he : p.endDate with
      | none => simp only [calculate_project_staffing_needs, hfind, hn, he, Option.none_orElse]
      | some ed => simp only [calculate_project_staffing_needs, hfind, hn, he, Option.none_orElse]
    · cases hsd : p.startDate with
      | none => simp only [calculate_project_staffing_needs, hfind, hsd, hn, Option.none_orElse]
      | some sd => simp only [calculate_project_staffing_needs, hfind, hsd, hn, Option.none_orElse]
  · intro db projectId p sd ed hfind hs he hempty
    simp only [calculate_project_staffing_needs, hfind, hs, he, Option.none_orElse, hempty,
      weekLoop_nil, List.map_nil, List.sum_nil, List.length_nil]

/-- Witness for C7 on concrete data: the date-less project 20 errors; the
dated project 13 with zero assignments returns the all-empty, all-zero
structure. -/
theorem witness_C7 :
    calculate_project_staffing_needs dbC7 20 none none =
      Except.error "Project must have start and end dates, or dates must be provided" ∧
    calculate_project_staffing_needs dbC7 13 none none =
      Except.ok { projectId := 13
                  projectName := projBare.pname
                  forecastStart := ⟨2025, 1, 1⟩
                  forecastEnd := ⟨2025, 3, 31⟩
                  weeklyStaffing := []
                  weeklyStaffingRaw := []
                  staffBreakdown := []
                  totalEstimatedCost := 0
                  totalInternalCost := 0
                  totalAllocatedCost := 0
                  totalAllocatedInternalCost := 0
                  assignmentsCount := 0 } := by
  constructor
  · exact claim_C7.1 dbC7 20 projNoDates rfl (Or.inl rfl)
  · exact claim_C7.2 dbC7 13 projBare ⟨2025, 1, 1⟩ ⟨2025, 3, 31⟩ rfl rfl rfl rfl

theorem foldl_add_eq {α : Type} (l : List α) (f : α → ℚ) :
    ∀ init : ℚ, l.foldl (fun acc x => acc + f x) init = init + (l.map f).sum := by
  induction l with
  | nil => intro init; simp
  | cons h t ih =>
    intro init
    rw [List.foldl_cons, ih]
    simp [add_assoc]

/-- Claim C8: on a project with start and end dates, `simulate_scenario` with
an empty change set reports `cost_difference = 0` and
`assignment_difference = 0` against the real current forecast. -/
theorem claim_C8 : ∀ (db : DB) (projectId : Int) (p : Project) (sd ed : Date),
    db.projects.find? (fun q => q.pid == projectId) = some p →
    p.startDate = some sd → p.endDate = some ed →
    ∃ res, simulate_scenario db projectId emptyChanges = Except.ok res ∧
      res.impact.costDifference = 0 ∧ res.impact.assignmentDifference = 0 := by
  intro db projectId p sd ed hfind hs he
  have hcf : calculate_project_staffing_needs db projectId none none =
      Except.ok { projectId := projectId
                  projectName := p.pname
                  forecastStart := sd
                  forecastEnd := ed
                  weeklyStaffing := (weekLoop db.assignments
                    (db.assignments.filter (fun a => a.projectId == projectId))
                    (toOrdinal ed) (toOrdinal sd) ⟨[], [], []⟩).weeklyStaffing
                  weeklyStaffingRaw := (weekLoop db.assignments
                    (db.assignments.filter (fun a => a.projectId == projectId))
                    (toOrdinal ed) (toOrdinal sd) ⟨[], [], []⟩).weeklyStaffingRaw
                  staffBreakdown := (weekLoop db.assignments
                    (db.assignments.filter (fun a => a.projectId == projectId))
                    (toOrdinal ed) (toOrdinal sd) ⟨[], [], []⟩).staffBreakdown
                  totalEstimatedCost := ((db.assignments.filter
                    (fun a => a.projectId == projectId)).map
                      (fun a => estimatedCost db.roles a)).sum
                  totalInternalCost := ((db.assignments.filter
                    (fun a => a.projectId == projectId)).map internalCost).sum
                  totalAllocatedCost := ((db.assignments.filter
                    (fun a => a.projectId == projectId)).map
                      (fun a => allocatedEstimatedCost db.roles db.assignments a)).sum
                  totalAllocatedInternalCost := ((db.assignments.filter
                    (fun a => a.projectId == projectId)).map
                      (fun a => allocatedInternalCost db.assignments a)).sum
                  assignmentsCount := (db.assignments.filter
                    (fun a => a.projectId == projectId)).length } := by
    simp only [calculate_project_staffing_needs, hfind, hs, he, Option.none_orElse]
  have hterm : ∀ a : Assignment,
      ((toOrdinal a.endDate - toOrdinal a.startDate : Int) : ℚ) / 7 * a.hoursPerWeek *
        (get_effective_billable_rate db.roles a).1 = estimatedCost db.roles a := by
    intro a
    simp only [estimatedCost, Assignment.totalHours, Assignment.durationWeeks]
  cases hsimEq : simulate_scenario db projectId emptyChanges with
  | error e =>
    rw [simulate_scenario, hfind, hcf] at hsimEq
    exact Except.noConfusion hsimEq
  | ok res =>
    refine ⟨res, rfl, ?_, ?_⟩
    all_goals
      rw [simulate_scenario, hfind, hcf] at hsimEq
      simp only [Except.bind, emptyChanges, List.find?_nil, Option.map_none,
        Option.getD_none, List.filterMap_nil, List.append_nil, List.contains_nil,
        Bool.not_false, List.filter_true, hs, he, Except.ok.injEq] at hsimEq
      rw [← hsimEq]
    · show _ - _ = (0 : ℚ)
      rw [foldl_add_eq, List.map_map, zero_add, sub_eq_zero]
      refine congrArg List.sum (List.map_congr_left ?_)
      intro a _
      exact hterm a
    · show _ - _ = (0 : Int)
      simp

/-- Witness for C8: the empty-change simulation on the dated project 13 with
one assignment reports zero cost and assignment differences. -/
theorem witness_C8 :
    ∃ res, simulate_scenario dbC8 13 emptyChanges = Except.ok res ∧
      res.impact.costDifference = 0 ∧ res.impact.assignmentDifference = 0 :=
  claim_C8 dbC8 13 projBare ⟨2025, 1, 1⟩ ⟨2025, 3, 31⟩ rfl rfl rfl

theorem map_filterMap_if {α β γ : Type} (l : List α) (q : α → Prop) [DecidablePred q]
    (mk : α → β) (proj : β → γ) :
    (l.filterMap (fun a => if q a then some (mk a) else none)).map proj =
      (l.filter (fun a => decide (q a))).map (fun a => proj (mk a)) := by
  induction l with
  | nil => rfl
  | cons a t ih =>
    by_cases h : q a
    · simp [List.filterMap_cons, List.filter_cons, h, ih]
    · simp [List.filterMap_cons, List.filter_cons, h, ih]

theorem filter_filter_right {α : Type} (l : List α) (p q : α → Bool) :
    (l.filter p).filter q = l.filter (fun a => p a && q a) := by
  rw [List.filter_filter]
  refine List.filter_congr ?_
  intro a _
  cases p a <;> cases q a <;> rfl

theorem timelineMonthData_total (db : DB) (staffId : Int) (sd ed : Date) (ym : Int × Nat) :
    (timelineMonthData db staffId sd ed ym).totalAllocation =
      amendedMonthSum db staffId sd ed ym := by
  show (((db.assignments.filter (fun a =>
      a.staffId == staffId && dateLE a.startDate ed && dateLE sd a.endDate)).filterMap (fun a =>
        if 0 < calculate_date_range_overlap (some a.startDate) (some a.endDate)
            (some (firstOfMonth ym)) (some (lastOfMonth ym)) then
          some ({ assignmentId := a.id, projectId := a.projectId,
                  allocationPercentage := getAllocationForPeriod db.assignments a
                    (some (firstOfMonth ym)) (some (lastOfMonth ym)),
                  overlapDays := calculate_date_range_overlap (some a.startDate)
                    (some a.endDate) (some (firstOfMonth ym))
                    (some (lastOfMonth ym)) } : MonthAssignmentEntry)
        else none)).map (fun e => e.allocationPercentage)).sum =
      amendedMonthSum db staffId sd ed ym
  rw [map_filterMap_if, filter_filter_right]
  unfold amendedMonthSum
  have hfilters : (db.assignments.filter (fun a =>
      (a.staffId == staffId && dateLE a.startDate ed && dateLE sd a.endDate) &&
        decide (0 < calculate_date_range_overlap (some a.startDate) (some a.endDate)
          (some (firstOfMonth ym)) (some (lastOfMonth ym))))) =
      (db.assignments.filter (fun a =>
        a.staffId == staffId && dateLE a.startDate ed && dateLE sd a.endDate &&
          decide (0 < calculate_date_range_overlap (some a.startDate) (some a.endDate)
            (some (firstOfMonth ym)) (some (lastOfMonth ym))))) := by
    refine List.filter_congr ?_
    intro a _
    cases a.staffId == staffId <;> cases dateLE a.startDate ed <;>
      cases dateLE sd a.endDate <;>
      cases decide (0 < calculate_date_range_overlap (some a.startDate) (some a.endDate)
        (some (firstOfMonth ym)) (some (lastOfMonth ym))) <;> rfl
  rw [hfilters]

theorem monthList_q1_2025 :
    monthList (2025, 1) (⟨2025, 3, 31⟩ : Date) = [(2025, 1), (2025, 2), (2025, 3)] := by
  rw [monthList_eq, if_pos (by decide), show nextMonth (2025, 1) = (2025, 2) by decide,
    monthList_eq, if_pos (by decide), show nextMonth (2025, 2) = (2025, 3) by decide,
    monthList_eq, if_pos (by decide), show nextMonth (2025, 3) = (2025, 4) by decide,
    monthList_eq, if_neg (by decide)]

theorem monthList_2025_jan_feb :
    monthList (2025, 1) (⟨2025, 2, 15⟩ : Date) = [(2025, 1), (2025, 2)] := by
  rw [monthList_eq, if_pos (by decide), show nextMonth (2025, 1) = (2025, 2) by decide,
    monthList_eq, if_pos (by decide), show nextMonth (2025, 2) = (2025, 3) by decide,
    monthList_eq, if_neg (by decide)]

/-- Claim C4 (amended): a timeline month is flagged `is_over_allocated`
exactly when the sum of the month-clamped effective allocations over the
staff member's assignments overlapping *both the queried period and the
month* exceeds 100 (the code pre-filters assignments to the queried period,
so an assignment overlapping only the boundary month is not counted);
`detect_over_allocations` reports conflicts exactly when some timeline month
exceeds 100, and classifies the overall severity from the maximum of the
monthly excesses *rounded to one decimal*: above 50 critical, above 25 high,
otherwise moderate, and none without conflicts.  In particular two
overlapping full-time assignments give a month total of 200, flagged
over-allocated. -/
theorem claim_C4 :
    (∀ (db : DB) (staffId : Int) (sd ed : Date) (t : Timeline),
      get_staff_allocation_timeline db staffId sd ed = Except.ok t →
      ∀ md ∈ t.monthlyAllocations,
        md.totalAllocation = amendedMonthSum db staffId sd ed md.month ∧
        (md.isOverAllocated = true ↔ 100 < amendedMonthSum db staffId sd ed md.month)) ∧
    (∀ (db : DB) (staffId : Int) (sd ed : Date) (r : DetectResult),
      detect_over_allocations db staffId sd ed = Except.ok r →
      (r.hasConflicts = true ↔ ∃ md ∈ r.timeline, 100 < md.totalAllocation) ∧
      r.overallSeverity =
        (if ∃ md ∈ r.timeline, 100 < md.totalAllocation then
          severityOfExcess (listMaxQ ((r.timeline.filter (fun md =>
            decide (100 < md.totalAllocation))).map
              (fun md => roundTo1 (md.totalAllocation - 100))))
        else "none")) ∧
    (∃ t, get_staff_allocation_timeline dbC4 1 ⟨2025, 1, 1⟩ ⟨2025, 3, 31⟩ = Except.ok t ∧
      ∃ md ∈ t.monthlyAllocations, md.month = (2025, 2) ∧
        md.totalAllocation = 200 ∧ md.isOverAllocated = true) := by
  have hflag : ∀ (db : DB) (staffId : Int) (sd ed : Date) (ym : Int × Nat),
      (timelineMonthData db staffId sd ed ym).isOverAllocated =
        decide (100 < (timelineMonthData db staffId sd ed ym).totalAllocation) :=
    fun db staffId sd ed ym => rfl
  have hmonth : ∀ (db : DB) (staffId : Int) (sd ed : Date) (ym : Int × Nat),
      (timelineMonthData db staffId sd ed ym).month = ym :=
    fun db staffId sd ed ym => rfl
  refine ⟨?_, ?_, ?_⟩
  · intro db staffId sd ed t ht md hmem
    cases hf : db.staffs.find? (fun s => s.id == staffId) with
    | none =>
      rw [get_staff_allocation_timeline, hf] at ht
      exact Except.noConfusion ht
    | some st =>
      rw [get_staff_allocation_timeline, hf] at ht
      rw [Except.ok.injEq] at ht
      rw [← ht] at hmem
      simp only [List.mem_map] at hmem
      obtain ⟨ym, _, hmd⟩ := hmem
      subst hmd
      rw [hmonth, timelineMonthData_total]
      refine ⟨rfl, ?_⟩
      rw [hflag, timelineMonthData_total]
      simp [decide_eq_true_eq]
  · intro db staffId sd ed r hr
    cases hf : db.staffs.find? (fun s => s.id == staffId) with
    | none =>
      rw [detect_over_allocations, hf] at hr
      exact Except.noConfusion hr
    | some st =>
      have htl : get_staff_allocation_timeline db staffId sd ed =
          Except.ok { staffId := staffId
                      staffName := st.name
                      monthlyAllocations := (monthList (sd.year, sd.month) ed).map
                        (timelineMonthData db staffId sd ed) } := by
        simp only [get_staff_allocation_timeline, hf]
      rw [detect_over_allocations, hf, htl] at hr
      simp only [Except.bind, Except.ok.injEq] at hr
      set tms := (monthList (sd.year, sd.month) ed).map (timelineMonthData db staffId sd ed)
        with htms
      set mkOver := (fun md : MonthData =>
        ({ month := md.month
           totalAllocation := md.totalAllocation
           overAllocationAmount := roundTo1 (md.totalAllocation - 100)
           severity := if 50 < md.totalAllocation - 100 then "critical"
             else if 25 < md.totalAllocation - 100 then "high" else "moderate"
           conflictingAssignments := md.assignments } : OverPeriod)) with hmk
      have hrc : r.hasConflicts = decide (0 < (tms.filterMap (fun md =>
          if md.isOverAllocated = true then some (mkOver md) else none)).length) := by
        rw [← hr]
      have hrtl : r.timeline = tms := by
        rw [← hr]
      have hsev : r.overallSeverity =
          (if (tms.filterMap (fun md =>
              if md.isOverAllocated = true then some (mkOver md) else none)).length = 0
           then "none"
           else
             if 50 < listMaxQ ((tms.filterMap (fun md =>
                 if md.isOverAllocated = true then some (mkOver md) else none)).map
                   (fun p => p.overAllocationAmount)) then "critical"
             else if 25 < listMaxQ ((tms.filterMap (fun md =>
                 if md.isOverAllocated = true then some (mkOver md) else none)).map
                   (fun p => p.overAllocationAmount)) then "high"
             else "moderate") := by
        rw [← hr]
      have hflagIn : ∀ md ∈ tms, md.isOverAllocated = decide (100 < md.totalAllocation) := by
        intro md hmd
        rw [htms] at hmd
        simp only [List.mem_map] at hmd
        obtain ⟨ym, _, h⟩ := hmd
        rw [← h]
        exact hflag db staffId sd ed ym
      have hone : ∀ md ∈ tms,
          ((if md.isOverAllocated = true then some (mkOver md) else none) = none ↔
            ¬ 100 < md.totalAllocation) := by
        intro md hmd
        rw [hflagIn md hmd]
        by_cases h : 100 < md.totalAllocation
        · simp [h]
        · simp [h]
      have hnil : (tms.filterMap (fun md =>
          if md.isOverAllocated = true then some (mkOver md) else none)) = [] ↔
          ∀ md ∈ tms, ¬ 100 < md.totalAllocation := by
        rw [List.filterMap_eq_nil_iff]
        constructor
        · intro h md hmd
          exact (hone md hmd).mp (h md hmd)
        · intro h md hmd
          exact (hone md hmd).mpr (h md hmd)
      have hex_iff : ¬ ((tms.filterMap (fun md =>
          if md.isOverAllocated = true then some (mkOver md) else none)) = []) ↔
          ∃ md ∈ tms, 100 < md.totalAllocation := by
        rw [hnil]
        push_neg
        rfl
      have hmapeq : ((tms.filterMap (fun md =>
          if md.isOverAllocated = true then some (mkOver md) else none)).map
            (fun p => p.overAllocationAmount)) =
          (tms.filter (fun md => decide (100 < md.totalAllocation))).map
            (fun md => roundTo1 (md.totalAllocation - 100)) := by
        rw [map_filterMap_if]
        have hfeq : tms.filter (fun md => decide (md.isOverAllocated = true)) =
            tms.filter (fun md => decide (100 < md.totalAllocation)) := by
          refine List.filter_congr ?_
          intro md hmd
          rw [hflagIn md hmd]
          cases decide (100 < md.totalAllocation) <;> rfl
        rw [hfeq]
      constructor
      · rw [hrc, hrtl]
        simp only [decide_eq_true_eq, List.length_pos]
        exact hex_iff
      · rw [hsev, hrtl]
        by_cases hex : ∃ md ∈ tms, 100 < md.totalAllocation
        · rw [if_pos hex]
          have hPne := hex_iff.mpr hex
          rw [if_neg (by rw [List.length_eq_zero]; exact hPne)]
          rw [hmapeq]
          rfl
        · rw [if_neg hex]
          have hP : (tms.filterMap (fun md =>
              if md.isOverAllocated = true then some (mkOver md) else none)) = [] := by
            by_contra hc
            exact hex (hex_iff.mp hc)
          rw [hP]
          rfl
  · have hm3 := monthList_q1_2025
    have htl4 : get_staff_allocation_timeline dbC4 1 ⟨2025, 1, 1⟩ ⟨2025, 3, 31⟩ =
        Except.ok { staffId := 1
                    staffName := staffAlice.name
                    monthlyAllocations := (monthList (2025, 1) ⟨2025, 3, 31⟩).map
                      (timelineMonthData dbC4 1 ⟨2025, 1, 1⟩ ⟨2025, 3, 31⟩) } := by
      simp only [get_staff_allocation_timeline,
        show dbC4.staffs.find? (fun s => s.id == 1) = some staffAlice from rfl]
    refine ⟨_, htl4, timelineMonthData dbC4 1 ⟨2025, 1, 1⟩ ⟨2025, 3, 31⟩ (2025, 2), ?_, rfl,
      ?_, ?_⟩
    · show _ ∈ (monthList (2025, 1) (⟨2025, 3, 31⟩ : Date)).map
        (timelineMonthData dbC4 1 ⟨2025, 1, 1⟩ ⟨2025, 3, 31⟩)
      rw [hm3]
      exact List.mem_map_of_mem _ (by simp)
    · rw [show (timelineMonthData dbC4 1 ⟨2025, 1, 1⟩ ⟨2025, 3, 31⟩ (2025, 2)).totalAllocation
        = ([100, 100] : List ℚ).sum from rfl]
      simp only [List.sum_cons, List.sum_nil]
      norm_num
    · rw [hflag, show (timelineMonthData dbC4 1 ⟨2025, 1, 1⟩ ⟨2025, 3, 31⟩
        (2025, 2)).totalAllocation = ([100, 100] : List ℚ).sum from rfl]
      simp only [List.sum_cons, List.sum_nil, decide_eq_true_eq]
      norm_num

/-- Witness for C4: on the two overlapping full-time assignments the February
timeline total equals the amended month sum and the over-allocation flag
matches, and the detect result's conflict flag matches the existence of an
over-allocated timeline month. -/
theorem witness_C4 :
    ((timelineMonthData dbC4 1 ⟨2025, 1, 1⟩ ⟨2025, 3, 31⟩ (2025, 2)).totalAllocation =
        amendedMonthSum dbC4 1 ⟨2025, 1, 1⟩ ⟨2025, 3, 31⟩ (2025, 2) ∧
      ((timelineMonthData dbC4 1 ⟨2025, 1, 1⟩ ⟨2025, 3, 31⟩ (2025, 2)).isOverAllocated = true ↔
        100 < amendedMonthSum dbC4 1 ⟨2025, 1, 1⟩ ⟨2025, 3, 31⟩ (2025, 2))) ∧
    (∃ r, detect_over_allocations dbC4 1 ⟨2025, 1, 1⟩ ⟨2025, 3, 31⟩ = Except.ok r ∧
      (r.hasConflicts = true ↔ ∃ md ∈ r.timeline, 100 < md.totalAllocation)) := by
  constructor
  · have h := claim_C4.1 dbC4 1 ⟨2025, 1, 1⟩ ⟨2025, 3, 31⟩
      { staffId := 1
        staffName := staffAlice.name
        monthlyAllocations := (monthList (2025, 1) (⟨2025, 3, 31⟩ : Date)).map
          (timelineMonthData dbC4 1 ⟨2025, 1, 1⟩ ⟨2025, 3, 31⟩) } rfl
      (timelineMonthData dbC4 1 ⟨2025, 1, 1⟩ ⟨2025, 3, 31⟩ (2025, 2)) ?_
    · rw [show (timelineMonthData dbC4 1 ⟨2025, 1, 1⟩ ⟨2025, 3, 31⟩ (2025, 2)).month =
        ((2025 : Int), (2 : Nat)) from rfl] at h
      exact h
    · show _ ∈ (monthList (2025, 1) (⟨2025, 3, 31⟩ : Date)).map
        (timelineMonthData dbC4 1 ⟨2025, 1, 1⟩ ⟨2025, 3, 31⟩)
      rw [monthList_q1_2025]
      exact List.mem_map_of_mem _ (by simp)
  · exact ⟨_, rfl, (claim_C4.2.1 dbC4 1 ⟨2025, 1, 1⟩ ⟨2025, 3, 31⟩ _ rfl).1⟩

/-- Counterexample to C4 as stated: queried from 2025-01-15, assignment 403
(2025-01-01 to 2025-01-05) overlaps January but not the queried period, so the
code leaves January at 100 and unflagged although the sum of effective
allocations over *all* assignments overlapping January is 200. -/
theorem counterexample_C4 :
    ∃ t, get_staff_allocation_timeline dbC4x 1 ⟨2025, 1, 15⟩ ⟨2025, 2, 15⟩ = Except.ok t ∧
      ∃ md ∈ t.monthlyAllocations, md.month = (2025, 1) ∧
        md.isOverAllocated = false ∧ 100 < claimMonthSum dbC4x 1 (2025, 1) := by
  refine ⟨_, rfl, timelineMonthData dbC4x 1 ⟨2025, 1, 15⟩ ⟨2025, 2, 15⟩ (2025, 1), ?_, rfl,
    ?_, ?_⟩
  · show _ ∈ (monthList (2025, 1) (⟨2025, 2, 15⟩ : Date)).map
      (timelineMonthData dbC4x 1 ⟨2025, 1, 15⟩ ⟨2025, 2, 15⟩)
    rw [monthList_2025_jan_feb]
    exact List.mem_map_of_mem _ (by simp)
  · rw [show (timelineMonthData dbC4x 1 ⟨2025, 1, 15⟩ ⟨2025, 2, 15⟩ (2025, 1)).isOverAllocated
      = decide (100 < ([100] : List ℚ).sum) from rfl]
    simp only [List.sum_cons, List.sum_nil, decide_eq_false_iff_not]
    norm_num
  · rw [show claimMonthSum dbC4x 1 (2025, 1) = ([100, 100] : List ℚ).sum from rfl]
    simp only [List.sum_cons, List.sum_nil]
    norm_num

theorem validate_core (db : DB) (staffId : Int) (ns ne : Date) (pct : ℚ)
    (excl : Option Int) (EX : List Assignment)
    (hEX : ∀ ym : Int × Nat,
      ((EX.filter (fun a => decide (0 < calculate_date_range_overlap (some a.startDate)
          (some a.endDate) (some (firstOfMonth ym)) (some (lastOfMonth ym))))).map
        (fun a => getAllocationForPeriod db.assignments a (some (firstOfMonth ym))
          (some (lastOfMonth ym)))).sum = amendedExistingSum db staffId ns ne excl ym) :
    ((monthList (ns.year, ns.month) ne).filterMap
        (validateMonthConflict db EX pct)).map (fun c => c.month) =
      (monthList (ns.year, ns.month) ne).filter (fun ym =>
        decide (100 < amendedExistingSum db staffId ns ne excl ym + pct)) := by
  have hvmc : ∀ ym : Int × Nat, validateMonthConflict db EX pct ym =
      (if 100 < amendedExistingSum db staffId ns ne excl ym + pct then
        some ({ month := ym
                existingAllocation := roundTo1 (amendedExistingSum db staffId ns ne excl ym)
                newAllocation := pct
                projectedTotal := roundTo1 (amendedExistingSum db staffId ns ne excl ym + pct)
                overAllocationAmount :=
                  roundTo1 (amendedExistingSum db staffId ns ne excl ym + pct - 100)
                existingAssignments := EX.filterMap (fun a =>
                  if 0 < calculate_date_range_overlap (some a.startDate) (some a.endDate)
                      (some (firstOfMonth ym)) (some (lastOfMonth ym)) then
                    some (a.id, getAllocationForPeriod db.assignments a
                      (some (firstOfMonth ym)) (some (lastOfMonth ym)))
                  else none) } : MonthConflict)
      else none) := by
    intro ym
    have hsum : ((EX.filterMap (fun a =>
        if 0 < calculate_date_range_overlap (some a.startDate) (some a.endDate)
            (some (firstOfMonth ym)) (some (lastOfMonth ym)) then
          some (a.id, getAllocationForPeriod db.assignments a (some (firstOfMonth ym))
            (some (lastOfMonth ym)))
        else none)).map (fun e => e.2)).sum =
        amendedExistingSum db staffId ns ne excl ym := by
      rw [map_filterMap_if]
      exact hEX ym
    simp only [validateMonthConflict]
    rw [hsum]
  have h1 : (monthList (ns.year, ns.month) ne).filterMap (validateMonthConflict db EX pct) =
      (monthList (ns.year, ns.month) ne).filterMap (fun ym =>
        if 100 < amendedExistingSum db staffId ns ne excl ym + pct then
          some ({ month := ym
                  existingAllocation := roundTo1 (amendedExistingSum db staffId ns ne excl ym)
                  newAllocation := pct
                  projectedTotal := roundTo1 (amendedExistingSum db staffId ns ne excl ym + pct)
                  overAllocationAmount :=
                    roundTo1 (amendedExistingSum db staffId ns ne excl ym + pct - 100)
                  existingAssignments := EX.filterMap (fun a =>
                    if 0 < calculate_date_range_overlap (some a.startDate) (some a.endDate)
                        (some (firstOfMonth ym)) (some (lastOfMonth ym)) then
                      some (a.id, getAllocationForPeriod db.assignments a
                        (some (firstOfMonth ym)) (some (lastOfMonth ym)))
                    else none) } : MonthConflict)
        else none) := List.filterMap_congr (fun a _ => hvmc a)
  rw [h1, map_filterMap_if]
  exact (List.map_congr_left (fun a _ => rfl)).trans (List.map_id _)

/-- Claim C5 (amended): `validate_assignment_allocation` always returns
`can_override = true`, reports `is_valid` exactly when the conflicts list is
empty, and the conflicts are exactly the calendar months of the *proposed*
range where the proposed percentage plus the month allocations of the staff
member's existing assignments *that overlap the proposed period* (optionally
excluding one nonzero assignment id) exceed 100.  The claim as stated sums
over all existing assignments overlapping the month; the code first filters
them to the proposed period, see `counterexample_C5`. -/
theorem claim_C5 (db : DB) (staffId : Int) (ns ne : Date) (pct : ℚ)
    (excl : Option Int) (res : ValidationResult) (hne : excl ≠ some 0)
    (hr : validate_assignment_allocation db staffId ns ne pct excl = Except.ok res) :
    res.canOverride = true ∧
    (res.isValid = true ↔ res.conflicts = []) ∧
    res.conflicts.map (fun c => c.month) =
      (monthList (ns.year, ns.month) ne).filter (fun ym =>
        decide (100 < amendedExistingSum db staffId ns ne excl ym + pct)) := by
  cases hf : db.staffs.find? (fun s => s.id == staffId) with
  | none =>
    rw [validate_assignment_allocation, hf] at hr
    exact Except.noConfusion hr
  | some staff =>
    cases excl with
    | none =>
      simp only [validate_assignment_allocation, hf, Except.ok.injEq] at hr
      have hco : res.canOverride = true := by rw [← hr]
      have hval : res.isValid = decide (((monthList (ns.year, ns.month) ne).filterMap
          (validateMonthConflict db (db.assignments.filter (fun a =>
            a.staffId == staffId && dateLE a.startDate ne && dateLE ns a.endDate))
            pct)).length = 0) := by
        rw [← hr]
      have hconf : res.conflicts = (monthList (ns.year, ns.month) ne).filterMap
          (validateMonthConflict db (db.assignments.filter (fun a =>
            a.staffId == staffId && dateLE a.startDate ne && dateLE ns a.endDate)) pct) := by
        rw [← hr]
      have hEX : ∀ ym : Int × Nat,
          (((db.assignments.filter (fun a =>
              a.staffId == staffId && dateLE a.startDate ne && dateLE ns a.endDate)).filter
            (fun a => decide (0 < calculate_date_range_overlap (some a.startDate)
              (some a.endDate) (some (firstOfMonth ym)) (some (lastOfMonth ym))))).map
            (fun a => getAllocationForPeriod db.assignments a (some (firstOfMonth ym))
              (some (lastOfMonth ym)))).sum = amendedExistingSum db staffId ns ne none ym := by
        intro ym
        rw [filter_filter_right]
        simp only [amendedExistingSum]
        refine congrArg List.sum (congrArg (List.map _) (List.filter_congr ?_))
        intro a _
        cases a.staffId == staffId <;> cases dateLE a.startDate ne <;>
          cases dateLE ns a.endDate <;>
          cases decide (0 < calculate_date_range_overlap (some a.startDate) (some a.endDate)
            (some (firstOfMonth ym)) (some (lastOfMonth ym))) <;> rfl
      have hcm := validate_core db staffId ns ne pct none _ hEX
      refine ⟨hco, ?_, ?_⟩
      · rw [hval, hconf]
        simp [List.length_eq_zero]
      · rw [hconf]
        exact hcm
    | some eid =>
      have h0 : eid ≠ 0 := fun h => hne (by rw [h])
      simp only [validate_assignment_allocation, hf, Except.ok.injEq] at hr
      simp only [if_pos h0] at hr
      have hco : res.canOverride = true := by rw [← hr]
      have hval : res.isValid = decide (((monthList (ns.year, ns.month) ne).filterMap
          (validateMonthConflict db ((db.assignments.filter (fun a =>
            a.staffId == staffId && dateLE a.startDate ne && dateLE ns a.endDate)).filter
              (fun a => !(a.id == eid))) pct)).length = 0) := by
        rw [← hr]
      have hconf : res.conflicts = (monthList (ns.year, ns.month) ne).filterMap
          (validateMonthConflict db ((db.assignments.filter (fun a =>
            a.staffId == staffId && dateLE a.startDate ne && dateLE ns a.endDate)).filter
              (fun a => !(a.id == eid))) pct) := by
        rw [← hr]
      have hEX : ∀ ym : Int × Nat,
          ((((db.assignments.filter (fun a =>
              a.staffId == staffId && dateLE a.startDate ne && dateLE ns a.endDate)).filter
                (fun a => !(a.id == eid))).filter
            (fun a => decide (0 < calculate_date_range_overlap (some a.startDate)
              (some a.endDate) (some (firstOfMonth ym)) (some (lastOfMonth ym))))).map
            (fun a => getAllocationForPeriod db.assignments a (some (firstOfMonth ym))
              (some (lastOfMonth ym)))).sum =
            amendedExistingSum db staffId ns ne (some eid) ym := by
        intro ym
        rw [filter_filter_right, filter_filter_right]
        simp only [amendedExistingSum]
        refine congrArg List.sum (congrArg (List.map _) (List.filter_congr ?_))
        intro a _
        cases a.staffId == staffId <;> cases dateLE a.startDate ne <;>
          cases dateLE ns a.endDate <;> cases a.id == eid <;>
          cases decide (0 < calculate_date_range_overlap (some a.startDate) (some a.endDate)
            (some (firstOfMonth ym)) (some (lastOfMonth ym))) <;> rfl
      have hcm := validate_core db staffId ns ne pct (some eid) _ hEX
      refine ⟨hco, ?_, ?_⟩
      · rw [hval, hconf]
        simp [List.length_eq_zero]
      · rw [hconf]
        exact hcm

/-- Witness for C5: on `dbC4` with a proposed 50% assignment over the first
quarter, the validator's answer matches the amended month-by-month
characterisation. -/
theorem witness_C5 :
    ∃ res, validate_assignment_allocation dbC4 1 ⟨2025, 1, 1⟩ ⟨2025, 3, 31⟩ 50 none =
      Except.ok res ∧
      res.canOverride = true ∧ (res.isValid = true ↔ res.conflicts = []) ∧
      res.conflicts.map (fun c => c.month) =
        (monthList (2025, 1) (⟨2025, 3, 31⟩ : Date)).filter (fun ym =>
          decide (100 < amendedExistingSum dbC4 1 ⟨2025, 1, 1⟩ ⟨2025, 3, 31⟩ none ym + 50)) := by
  refine ⟨_, rfl, ?_⟩
  exact claim_C5 dbC4 1 ⟨2025, 1, 1⟩ ⟨2025, 3, 31⟩ 50 none _
    (fun h => Option.noConfusion h) rfl

/-- Counterexample to C5 as stated: assignment 501 (2025-01-01 to 2025-01-10)
overlaps January but not the proposed period 2025-01-20 to 2025-02-15, so the
code reports no conflict for January although the sum over all existing
assignments overlapping January plus the proposed 50 is 150 > 100. -/
theorem counterexample_C5 :
    ∃ res, validate_assignment_allocation dbC5x 1 ⟨2025, 1, 20⟩ ⟨2025, 2, 15⟩ 50 none =
      Except.ok res ∧ res.conflicts = [] ∧ res.isValid = true ∧
      (2025, 1) ∈ monthList (2025, 1) (⟨2025, 2, 15⟩ : Date) ∧
      100 < claimExistingSum dbC5x 1 none (2025, 1) + 50 := by
  have hnone : ∀ ym : Int × Nat, validateMonthConflict dbC5x [] 50 ym = none := by
    intro ym
    simp only [validateMonthConflict, List.filterMap_nil, List.map_nil, List.sum_nil]
    rw [if_neg (by norm_num)]
  refine ⟨_, rfl, ?_, ?_, ?_, ?_⟩
  · show ((monthList (2025, 1) (⟨2025, 2, 15⟩ : Date)).filterMap
      (validateMonthConflict dbC5x [] 50)) = []
    rw [monthList_2025_jan_feb]
    simp [List.filterMap_cons, hnone]
  · show decide ((((monthList (2025, 1) (⟨2025, 2, 15⟩ : Date)).filterMap
      (validateMonthConflict dbC5x [] 50))).length = 0) = true
    rw [monthList_2025_jan_feb]
    simp [List.filterMap_cons, hnone]
  · rw [monthList_2025_jan_feb]
    simp
  · rw [show claimExistingSum dbC5x 1 none (2025, 1) = ([100] : List ℚ).sum from rfl]
    simp only [List.sum_cons, List.sum_nil]
    norm_num

theorem peakFold_fst (f : MonthReq → ℚ) (l : List ((Int × Nat) × MonthReq)) :
    ∀ (q : ℚ) (k : Nat) (pm : Option (Int × Nat)),
    (l.foldl (fun pk mr =>
        if pk.1 < f mr.2 then (f mr.2, mr.2.count, some mr.1) else pk) (q, k, pm)).1 =
      (l.map (fun mr => f mr.2)).foldl max q := by
  induction l with
  | nil => intro q k pm; rfl
  | cons c t ih =>
    intro q k pm
    simp only [List.foldl_cons, List.map_cons]
    by_cases h : q < f c.2
    · rw [if_pos h, ih, max_eq_right (le_of_lt h)]
    · rw [if_neg h, ih, max_eq_left (le_of_not_lt h)]

theorem consFold_count (l : List ((Int × Nat) × MonthReq)) :
    ∀ (q : ℚ) (k : Nat) (pm : Option (Int × Nat)), q = (k : ℚ) →
    (l.foldl (fun pk mr =>
        if pk.1 < ((mr.2.count : ℚ)) then ((mr.2.count : ℚ), mr.2.count, some mr.1) else pk)
      (q, k, pm)).2.1 = (l.map (fun mr => mr.2.count)).foldl max k := by
  induction l with
  | nil => intro q k pm hq; rfl
  | cons c t ih =>
    intro q k pm hq
    subst hq
    simp only [List.foldl_cons, List.map_cons]
    by_cases h : (k : ℚ) < (c.2.count : ℚ)
    · rw [if_pos h, ih _ _ _ rfl, max_eq_right (le_of_lt (Nat.cast_lt.mp h))]
    · rw [if_neg h, ih _ _ _ rfl, max_eq_left (Nat.cast_le.mp (le_of_not_lt h))]

/-- Claim C9 (planning-role dates spec-modelled, `suggest_staff_for_role`
abstracted as an oracle the claim does not constrain): in `conservative` mode
`minimum_staff_needed` is the raw summed headcount at the peak month — the
maximum of the monthly summed counts; in `efficient` mode it is the ceiling
of the peak month's allocation-weighted FTE — the maximum of the monthly
`allocation_total`s; and every `staff_requirements` entry of
`calculate_minimum_staff_per_role` is `minStaffEntryFor` of a role of the
exercise's coverage analysis. -/
theorem claim_C9 :
    (∀ (suggestFn : Int → Int × Nat → List Int) (rd : RoleCoverage),
      (minStaffEntryFor "conservative" suggestFn rd).minimumStaffNeeded =
        (peakHeadcount rd : Int)) ∧
    (∀ (suggestFn : Int → Int × Nat → List Int) (rd : RoleCoverage),
      (minStaffEntryFor "efficient" suggestFn rd).minimumStaffNeeded =
        Int.ceil (peakFte rd)) ∧
    (∀ (rolesTable : List Role) (ex : PlanningExercise) (overlapMode : String)
      (suggestFn : Int → Int × Nat → List Int) (res : MinStaffResult),
      calculate_minimum_staff_per_role rolesTable ex overlapMode suggestFn = Except.ok res →
      ∃ cov, generate_coverage_analysis rolesTable ex = Except.ok cov ∧
        ∀ e ∈ res.staffRequirements, ∃ rd ∈ cov.roleCoverage,
          e = minStaffEntryFor overlapMode suggestFn rd) := by
  refine ⟨?_, ?_, ?_⟩
  · intro suggestFn rd
    simp only [minStaffEntryFor, if_true]
    rw [consFold_count rd.monthlyRequirements 0 0 none (by norm_num)]
    unfold peakHeadcount
    rw [← List.foldl_eq_foldr]
  · intro suggestFn rd
    have hfe : ("efficient" = "conservative") = False := by simp
    simp only [minStaffEntryFor, hfe, if_false]
    rw [peakFold_fst (fun m => m.allocationTotal) rd.monthlyRequirements 0 0 none]
    unfold peakFte
    rw [← List.foldl_eq_foldr]
  · intro rolesTable ex overlapMode suggestFn res hres
    cases hcov : generate_coverage_analysis rolesTable ex with
    | error e =>
      rw [calculate_minimum_staff_per_role, hcov] at hres
      exact Except.noConfusion hres
    | ok cov =>
      rw [calculate_minimum_staff_per_role, hcov] at hres
      simp only [Except.bind, Except.ok.injEq] at hres
      refine ⟨cov, rfl, ?_⟩
      have hsr : res.staffRequirements =
          (cov.roleCoverage.map (minStaffEntryFor overlapMode suggestFn)).mergeSort
            (fun a b => decide (b.newHiresNeeded ≤ a.newHiresNeeded)) := by
        rw [← hres]
      intro e he
      rw [hsr] at he
      have he2 : e ∈ cov.roleCoverage.map (minStaffEntryFor overlapMode suggestFn) :=
        (List.mergeSort_perm _ _).mem_iff.mp he
      obtain ⟨rd, hrdmem, hrd⟩ := List.mem_map.mp he2
      exact ⟨rd, hrdmem, hrd.symm⟩

/-- Witness for C9: on the one-project, one-role planning exercise the
conservative minimum of every reported requirement is the peak summed
headcount of its coverage role. -/
theorem witness_C9 :
    ∃ res, calculate_minimum_staff_per_role exRoles exerciseA "conservative"
        (fun _ _ => []) = Except.ok res ∧
      ∃ cov, generate_coverage_analysis exRoles exerciseA = Except.ok cov ∧
        ∀ e ∈ res.staffRequirements, ∃ rd ∈ cov.roleCoverage,
          e = minStaffEntryFor "conservative" (fun _ _ => []) rd ∧
          e.minimumStaffNeeded = (peakHeadcount rd : Int) := by
  refine ⟨_, rfl, ?_⟩
  obtain ⟨cov, hcov, hmem⟩ := claim_C9.2.2 exRoles exerciseA "conservative"
    (fun _ _ => []) _ rfl
  refine ⟨cov, hcov, ?_⟩
  intro e he
  obtain ⟨rd, hrd, herd⟩ := hmem e he
  exact ⟨rd, hrd, herd, by rw [herd]; exact claim_C9.1 (fun _ _ => []) rd⟩

end HB
